import Mathlib

/-!
# NewsBoard playback-orchestration core: a shallow embedding

This file embeds the audio-exclusivity state machine, the URL
classifier, the M3U playlist parser and the grid layout computation of
`main.py` as executable Lean definitions, and proves the specification
claims about them.

Conventions:
* Python strings are modelled as `List Char`.
* Machine integers are modelled as `Int`/`Nat` (no overflow is relevant
  at the sizes involved).
* GUI-only effects (labels, icons, stylesheets) carry no audio state and
  are not part of the model.
-/

namespace NewsBoard

/-! ## Audio-exclusivity state machine

Embeds `NewsBoard.__init__` state fields, `QtTile.hard_mute`,
`QtTile.make_active`, `QtTile.set_mute_state`,
`NewsBoard._enforce_audio_policy`,
`NewsBoard._enforce_audio_policy_with_retries`,
`NewsBoard.toggle_mute_single`, `NewsBoard.on_tile_playing`,
`NewsBoard.create_video_widget` and `NewsBoard.remove_video_widget`.

Python tiles are compared by object identity; the model gives each tile
a numeric `id` and the theorems assume ids are distinct where identity
matters.  A tile's `volume` is kept as an integer percentage (the code
stores `percent / 100.0` as a float in the backend). -/

/-- `settings.audio_policy`: the string is either `"single"` or `"mixed"`. -/
inductive Policy where
  | single : Policy
  | mixed : Policy
deriving DecidableEq, Repr

/-- The audio-relevant state of one `QtTile`. -/
structure Tile where
  id : Nat
  muted : Bool
  volume : Int
deriving DecidableEq, Repr

/-- `QtTile.hard_mute`: mute and zero the volume. -/
def hardMute (t : Tile) : Tile :=
  { t with muted := true, volume := 0 }

/-- The clamp `max(0, min(100, int(volume_percent)))` in `QtTile.make_active`. -/
def clampVol (v : Int) : Int :=
  max 0 (min 100 v)

/-- `QtTile.make_active`: unmute and apply the clamped volume. -/
def makeActive (v : Int) (t : Tile) : Tile :=
  { t with muted := false, volume := clampVol v }

/-- `QtTile.set_mute_state`: `hard_mute` when muting; unmuting clears the
flag but does not touch the volume. -/
def setMuteState (m : Bool) (t : Tile) : Tile :=
  if m then hardMute t else { t with muted := false }

/-- The audio-relevant state of the `NewsBoard` orchestrator. -/
structure Board where
  tiles : List Tile
  active : Option Nat
  allowAutoSelect : Bool
  gen : Nat
  policy : Policy
  activeVolume : Int
  volumeDefault : Int
  isClearing : Bool
deriving DecidableEq, Repr

/-- `NewsBoard._enforce_audio_policy(generation)`: a no-op when the
generation is stale; under mixed policy only labels change; under single
policy every non-active tile is hard-muted and the active tile (if any)
is made active at the current volume. -/
def enforce (g : Nat) (s : Board) : Board :=
  if g ≠ s.gen then s
  else if s.policy = .mixed then s
  else
    let ts := s.tiles.map fun t => if s.active = some t.id then t else hardMute t
    let ts2 :=
      match s.active with
      | some a => ts.map fun t => if t.id = a then makeActive s.activeVolume t else t
      | none => ts
    { s with tiles := ts2 }

/-- `NewsBoard._enforce_audio_policy_with_retries`: bump the generation
and run one immediate pass under the new generation.  The queued
retries run `enforce gen` on the then-current board; claim C1 is about
those delayed runs. -/
def enforceRetries (s : Board) : Board :=
  enforce (s.gen + 1) { s with gen := s.gen + 1 }

/-- `NewsBoard.toggle_mute_single(video_widget)` for the tile with id
`tid` (tiles are identified by id; Python compares object identity). -/
def toggleMuteSingle (tid : Nat) (s : Board) : Board :=
  if s.isClearing then s
  else if s.policy = .mixed then
    { s with tiles := s.tiles.map fun t => if t.id = tid then setMuteState (!t.muted) t else t }
  else
    if s.active = some tid then
      enforceRetries
        { s with
          tiles := s.tiles.map fun t => if t.id = tid then setMuteState true t else t,
          active := none,
          allowAutoSelect := false }
    else
      enforceRetries { s with active := some tid, allowAutoSelect := true }

/-- `NewsBoard.on_tile_playing(tile)`. -/
def onTilePlaying (tid : Nat) (s : Board) : Board :=
  if s.isClearing then s
  else
    let s1 :=
      if s.active = none ∧ s.allowAutoSelect = true ∧ s.policy = .single then
        { s with active := some tid }
      else s
    enforceRetries s1

/-- `NewsBoard.create_video_widget(url, title)`: the new `QtTile` is
constructed with `muted = not is_first_video` (and initial backend
volume `0` when muted, the default volume otherwise); a first tile is
recorded as `currently_unmuted` with auto-select enabled before any
started/playable callback can run. -/
def createTile (tid : Nat) (s : Board) : Board :=
  let isFirst := s.tiles.isEmpty
  let t : Tile :=
    { id := tid,
      muted := !isFirst,
      volume := if isFirst then s.volumeDefault else 0 }
  let s1 := { s with tiles := s.tiles ++ [t] }
  let s2 := if isFirst then { s1 with active := some tid, allowAutoSelect := true } else s1
  enforceRetries s2

/-- `NewsBoard.remove_video_widget(widget)` for the tile with id `tid`.
`list.remove` drops the first identity match; the model erases the
first tile whose id is `tid`. -/
def removeTile (tid : Nat) (s : Board) : Board :=
  if s.isClearing then s
  else if tid ∈ s.tiles.map Tile.id then
    let wasUnmuted := s.active = some tid
    let active1 : Option Nat := if wasUnmuted then none else s.active
    let tiles1 := s.tiles.eraseP fun t => t.id = tid
    let s1 := { s with tiles := tiles1, active := active1 }
    let s2 :=
      if wasUnmuted ∧ tiles1 ≠ [] then
        { s1 with active := (tiles1.head?.map Tile.id), allowAutoSelect := true }
      else s1
    enforceRetries s2
  else s

/-! ## Grid layout (`NewsBoard.update_grid`) -/

/-- `settings.layout_mode`. -/
inductive LayoutMode where
  | auto : LayoutMode
  | twoByTwo : LayoutMode
  | threeByThree : LayoutMode
  | oneByN : LayoutMode
  | nByOne : LayoutMode
deriving DecidableEq, Repr

/-- `math.ceil(n / cols)` for positive `cols`. -/
def ceilDiv (a b : Nat) : Nat :=
  (a + b - 1) / b

/-- The `(cols, rows)` computation of `NewsBoard.update_grid` for
`n` non-detached tiles. -/
def gridDims (mode : LayoutMode) (n : Nat) : Nat × Nat :=
  match mode with
  | .twoByTwo => (2, ceilDiv n 2)
  | .threeByThree => (3, ceilDiv n 3)
  | .oneByN => (n, 1)
  | .nByOne => (1, n)
  | .auto => (max 1 (Nat.sqrt n), ceilDiv n (max 1 (Nat.sqrt n)))

/-- The cell of the `i`-th non-detached tile: `row = i // cols`,
`col = i % cols`. -/
def gridCell (cols i : Nat) : Nat × Nat :=
  (i / cols, i % cols)

/-- `active_widgets = [w for w in self.video_widgets if w not in self.pip_windows]`
followed by the row-major placement loop: the placement of `update_grid`
as a list of (tile id, row, col) triples. -/
def placeTiles (mode : LayoutMode) (tiles : List Nat) (pip : List Nat) :
    List (Nat × Nat × Nat) :=
  let activeW := tiles.filter fun t => ¬ pip.contains t
  let cols := (gridDims mode activeW.length).1
  (activeW.enum).map fun p => (p.2, (p.1 / cols), (p.1 % cols))

/-! ## URL classifier

Embeds `is_youtube_url`, `build_embed_or_watch` and `choose_backend`.
Python strings are `List Char`; the regular expressions of the source
are embedded as explicit scans with the same alternation order and the
same backtracking behaviour.  The stdlib collaborators `urlparse` and
`parse_qsl` are embedded for the URL shapes the program handles (ASCII
input; percent-decoding is the identity on the character classes
involved and is omitted). -/

/-- Shorthand: the character list of a string literal. -/
def strL (s : String) : List Char := s.toList

/-- The regex character class `[A-Za-z0-9_-]`. -/
def idChar (c : Char) : Bool :=
  ('A' ≤ c && c ≤ 'Z') || ('a' ≤ c && c ≤ 'z') || ('0' ≤ c && c ≤ '9') || c = '_' || c = '-'

/-- Strip a literal prefix, or fail. -/
def dropPref (pre s : List Char) : Option (List Char) :=
  if s.take pre.length = pre then some (s.drop pre.length) else none

/-- Python `str.startswith`. -/
def startsWithL (pre s : List Char) : Bool :=
  (dropPref pre s).isSome

/-- Python `needle in hay` substring containment. -/
def containsSub (needle : List Char) : List Char → Bool
  | [] => needle.isEmpty
  | c :: cs => startsWithL needle (c :: cs) || containsSub needle cs

/-- Python `str.lower` on ASCII input. -/
def toLowerL (l : List Char) : List Char :=
  l.map Char.toLower

/-- The characters `urlparse` allows in a scheme. -/
def isSchemeChar (c : Char) : Bool :=
  c.isAlpha || c.isDigit || c = '+' || c = '-' || c = '.'

/-- A character that does not terminate the netloc (`/`, `?`, `#`). -/
def netlocChar (c : Char) : Bool :=
  c ≠ '/' && c ≠ '?' && c ≠ '#'

/-- The components of `urllib.parse.urlparse` used by the program. -/
structure UrlParts where
  scheme : List Char
  netloc : List Char
  path : List Char
  query : List Char
  fragment : List Char
deriving DecidableEq, Repr

/-- The scheme detection of `urlparse`: the text before the first colon
must be nonempty, start with a letter and consist of scheme characters;
returns `(scheme, remainder)`. -/
def schemeSplit (u : List Char) : List Char × List Char :=
  let before := u.takeWhile (· ≠ ':')
  let afterC := u.dropWhile (· ≠ ':')
  let ok :=
    !afterC.isEmpty && (match before with | c :: _ => c.isAlpha | [] => false) &&
      before.all isSchemeChar
  if ok then (toLowerL before, afterC.drop 1) else ([], u)

/-- The netloc detection of `urlparse`: after a leading `//`, the netloc
runs until `/`, `?` or `#`; returns `(netloc, remainder)`. -/
def netlocSplit (rest : List Char) : List Char × List Char :=
  if rest.take 2 = strL "//" then
    ((rest.drop 2).takeWhile netlocChar, (rest.drop 2).dropWhile netlocChar)
  else ([], rest)

/-- Python `s.split(d, 1)` as used by `urlparse`: `(before, after)` with
an empty `after` when the delimiter is absent. -/
def splitAtCharDrop (d : Char) (s : List Char) : List Char × List Char :=
  (s.takeWhile (· ≠ d), (s.dropWhile (· ≠ d)).drop 1)

/-- `urllib.parse.urlparse`: split off a scheme when the text before the
first colon is a nonempty scheme-shaped word, a `//`-introduced netloc,
then the fragment after `#` and the query after `?`. -/
def urlparseL (u : List Char) : UrlParts :=
  let p1 := schemeSplit u
  let p2 := netlocSplit p1.2
  let p3 := splitAtCharDrop '#' p2.2
  let p4 := splitAtCharDrop '?' p3.1
  ⟨p1.1, p2.1, p4.1, p4.2, p3.2⟩

/-- `path.rstrip("/")`. -/
def rstripSlash (l : List Char) : List Char :=
  (l.reverse.dropWhile (· = '/')).reverse

/-- Case-insensitive literal prefix strip (`pre` is given in lowercase). -/
def dropPrefCI (pre s : List Char) : Option (List Char) :=
  if (s.take pre.length).map Char.toLower = pre then some (s.drop pre.length) else none

/-- The tail `[^>]+src="([^"]+)"` of the iframe regex after `<iframe`:
greedy `[^>]+` backtracks from the longest candidate length `j` down to
one; a successful `src="` literal must be followed by a nonempty
non-quote capture and a closing quote. -/
def iframeTail (s : List Char) : Nat → Option (List Char)
  | 0 => none
  | j + 1 =>
    match dropPrefCI (strL "src=\"") (s.drop (j + 1)) with
    | some rest =>
      let cap := rest.takeWhile (· ≠ '"')
      if cap ≠ [] ∧ rest.dropWhile (· ≠ '"') ≠ [] then some cap
      else iframeTail s j
    | none => iframeTail s j

/-- `re.search(r'<iframe[^>]+src="([^"]+)"', url, re.IGNORECASE)`:
scan for the leftmost full match and return the capture. -/
def findIframeSrc : List Char → Option (List Char)
  | [] => none
  | c :: cs =>
    match dropPrefCI (strL "<iframe") (c :: cs) with
    | some rest =>
      match iframeTail rest (rest.takeWhile (· ≠ '>')).length with
      | some cap => some cap
      | none => findIframeSrc cs
    | none => findIframeSrc cs

/-- `re.match(r"^/channel/([A-Za-z0-9_-]+)/live$", path)`: the greedy
group is the maximal `idChar` run (it cannot cross a slash), and the
remainder must be exactly `/live`. -/
def matchChannelLive (path : List Char) : Option (List Char) :=
  match dropPref (strL "/channel/") path with
  | none => none
  | some rest =>
    let seg := rest.takeWhile idChar
    if seg ≠ [] ∧ rest.dropWhile idChar = strL "/live" then some seg else none

/-- The alternatives of `(?:https?://)?` in attempt order. -/
def schemeAlts : List (List Char) :=
  [strL "https://", strL "http://", []]

/-- The alternatives of `(?:www\.)?` in attempt order. -/
def wwwAlts : List (List Char) :=
  [strL "www.", []]

/-- The host/path-marker alternatives of the video-id regex in attempt
order. -/
def coreAlts : List (List Char) :=
  [strL "youtube.com/watch?v=", strL "youtube.com/v/", strL "youtube.com/embed/",
    strL "youtube.com/shorts/", strL "youtu.be/"]

/-- All prefix alternatives of the video-id regex, in the backtracking
order of the pattern. -/
def ytCombos : List (List Char) :=
  schemeAlts.flatMap fun sch => wwwAlts.flatMap fun w => coreAlts.map fun core => sch ++ w ++ core

/-- `([A-Za-z0-9_-]{11})`: eleven id characters (the rest of the string
is unconstrained). -/
def idTake (s : List Char) : Option (List Char) :=
  let v := s.take 11
  if v.length = 11 ∧ v.all idChar = true then some v else none

/-- Try one prefix alternative of the video-id regex at the given
position. -/
def tryYtPrefix (s pre : List Char) : Option (List Char) :=
  match dropPref pre s with
  | some rest => idTake rest
  | none => none

/-- One position of the video-id regex: try every prefix alternative in
pattern order. -/
def matchAt (s : List Char) : Option (List Char) :=
  ytCombos.findSome? (tryYtPrefix s)

/-- `re.search` over the video-id regex: leftmost matching position
(the empty string still gets its position-zero attempt). -/
def searchYt : List Char → Option (List Char)
  | [] => matchAt []
  | c :: cs =>
    match matchAt (c :: cs) with
    | some v => some v
    | none => searchYt cs

/-- `urllib.parse.parse_qsl` with default flags: split on `&`, skip
empty fields, fields without `=` and fields with an empty value. -/
def parseQslPairs (q : List Char) : List (List Char × List Char) :=
  (q.splitOn '&').filterMap fun f =>
    if f = [] then none
    else
      let rest := f.dropWhile (· ≠ '=')
      if rest = [] then none
      else
        let value := rest.drop 1
        if value = [] then none else some (f.takeWhile (· ≠ '='), value)

/-- `dict(parse_qsl(p.query)).get("v", "")`: the last `v` binding wins. -/
def getQueryV (q : List Char) : List Char :=
  ((parseQslPairs q).filterMap fun p => if p.1 = strL "v" then some p.2 else none).getLastD []

/-- `build_embed_or_watch`: iframe-src extraction, the channel/live
rewrite, the video-id regex rewritten to the embed-canonical form, the
`/watch` query fallback, and pass-through otherwise. -/
def buildEmbedOrWatch (input : List Char) : List Char :=
  let url := (findIframeSrc input).getD input
  let p := urlparseL url
  let netloc := toLowerL p.netloc
  let path := rstripSlash p.path
  match (if containsSub (strL "youtube.com") netloc then matchChannelLive path else none) with
  | some ch => strL "https://www.youtube.com/channel/" ++ ch
  | none =>
    match searchYt url with
    | some vid => strL "https://www.youtube.com/embed/" ++ vid
    | none =>
      if containsSub (strL "youtube.com") netloc ∧ path = strL "/watch" then
        let v := getQueryV p.query
        if v.length = 11 then strL "https://www.youtube.com/embed/" ++ v else url
      else url

/-- `YOUTUBE_HOSTS`. -/
def youtubeHosts : List (List Char) :=
  [strL "youtube.com", strL "youtu.be", strL "youtube-nocookie.com",
    strL "www.youtube.com", strL "www.youtube-nocookie.com"]

/-- `is_youtube_url`. -/
def isYoutubeUrl (u : List Char) : Bool :=
  let netloc := toLowerL (urlparseL u).netloc
  youtubeHosts.any fun h => netloc = h || startsWithL ('.' :: h).reverse netloc.reverse

/-- `choose_backend(url, settings)`: the per-host override wins, a
YouTube URL picks the embed backend exactly when
`privacy_embed_only_youtube` is set, everything else uses the Qt
backend. -/
def chooseBackend (u : List Char) (perHost : List (List Char × List Char))
    (privacyEmbedOnly : Bool) : List Char :=
  let host := toLowerL (urlparseL u).netloc
  match (perHost.filterMap fun p => if p.1 = host then some p.2 else none).head? with
  | some b => b
  | none => if isYoutubeUrl u then (if privacyEmbedOnly then strL "embed" else strL "qt") else strL "qt"

/-! ## M3U playlist parser (`parse_m3u`) -/

/-- The whitespace characters stripped by Python `str.strip`. -/
def isSpaceL (c : Char) : Bool :=
  c = ' ' || c = '\t' || c = '\r' || c = '\n' || c = '\x0b' || c = '\x0c'

/-- Python `str.strip()`. -/
def stripL (l : List Char) : List Char :=
  ((l.dropWhile isSpaceL).reverse.dropWhile isSpaceL).reverse

/-- Python `str.splitlines()` for newline-separated text: split on
newline, with no empty final line for text ending in a newline. -/
def splitLinesL (content : List Char) : List (List Char) :=
  if content = [] then []
  else
    let parts := content.splitOn '\n'
    if content.getLast? = some '\n' then parts.dropLast else parts

/-- `re.search(r",(.+)$", info_line)`: the (leftmost) comma whose suffix
is nonempty captures that whole suffix; only a line whose first comma is
its last character (or with no comma) has no match. -/
def afterFirstComma (l : List Char) : Option (List Char) :=
  match l.dropWhile (· ≠ ',') with
  | [] => none
  | _ :: tail => if tail = [] then none else some tail

/-- `re.search(r'tvg-name="([^"]+)"', info_line)`: leftmost occurrence
with a nonempty capture and a closing quote. -/
def findTvgName : List Char → Option (List Char)
  | [] => none
  | c :: cs =>
    match dropPref (strL "tvg-name=\"") (c :: cs) with
    | some rest =>
      let cap := rest.takeWhile (· ≠ '"')
      if cap ≠ [] ∧ rest.dropWhile (· ≠ '"') ≠ [] then some cap
      else findTvgName cs
    | none => findTvgName cs

/-- The display-name resolution of `parse_m3u` for one `#EXTINF` line:
a `tvg-name` attribute wins, otherwise the text after the first comma,
otherwise the fixed placeholder. -/
def extinfName (l : List Char) : List Char :=
  let name :=
    match afterFirstComma l with
    | some t => t
    | none => strL "Unnamed Channel"
  match findTvgName l with
  | some n => n
  | none => name

/-- The inner URL scan of `parse_m3u`: the first following line that is
nonempty and not `#`-prefixed, together with the lines after it. -/
def findUrlSplit : List (List Char) → Option (List Char × List (List Char))
  | [] => none
  | l :: rest =>
    if l ≠ [] ∧ ¬ startsWithL (strL "#") l then some (l, rest) else findUrlSplit rest

theorem findUrlSplit_length {ls : List (List Char)} {u : List Char}
    {rest : List (List Char)} (h : findUrlSplit ls = some (u, rest)) :
    rest.length < ls.length := by
  induction ls with
  | nil => simp [findUrlSplit] at h
  | cons l tl ih =>
    by_cases hc : l ≠ [] ∧ ¬ startsWithL (strL "#") l
    · simp only [findUrlSplit, if_pos hc, Option.some.injEq, Prod.mk.injEq] at h
      simp [← h.2]
    · simp only [findUrlSplit, if_neg hc] at h
      exact Nat.lt_trans (ih h) (Nat.lt_succ_self _)

/-- The `while i < len(lines)` loop of `parse_m3u`: an `#EXTINF:` line
takes the next nonempty non-`#` line as its URL and the scan resumes
after that URL line; an `#EXTINF:` line with no such following line
emits nothing.  The `fuel` argument only bounds the recursion (each step
consumes at least one line); `scanM3u` supplies enough fuel. -/
def scanM3uF : Nat → List (List Char) → List (List Char × List Char)
  | 0, _ => []
  | _ + 1, [] => []
  | fuel + 1, l :: rest =>
    if startsWithL (strL "#EXTINF:") l then
      match findUrlSplit rest with
      | some (url, rest2) => (stripL (extinfName l), stripL url) :: scanM3uF fuel rest2
      | none => scanM3uF fuel rest
    else scanM3uF fuel rest

/-- The scan loop of `parse_m3u` over the whole line list. -/
def scanM3u (ls : List (List Char)) : List (List Char × List Char) :=
  scanM3uF ls.length ls

/-- `parse_m3u(content)`. -/
def parseM3u (content : List Char) : List (List Char × List Char) :=
  let lines := (splitLinesL content).map stripL
  let isM3u :=
    match lines.head? with
    | some l0 => startsWithL (strL "#EXTM3U") l0
    | none => false
  if isM3u then scanM3u lines
  else lines.filterMap fun l =>
    if l ≠ [] ∧ ¬ startsWithL (strL "#") l then some (strL "Pasted Link", l) else none

/-! ## Helper lemmas: the enforcement state machine -/

theorem enforce_stale {g : Nat} {s : Board} (h : g ≠ s.gen) : enforce g s = s := by
  unfold enforce
  rw [if_pos h]

theorem enforce_mixed {g : Nat} {s : Board} (h : s.policy = .mixed) : enforce g s = s := by
  unfold enforce
  by_cases hg : g ≠ s.gen
  · rw [if_pos hg]
  · rw [if_neg hg, if_pos h]

theorem enforce_active (g : Nat) (s : Board) : (enforce g s).active = s.active := by
  unfold enforce
  by_cases hg : g ≠ s.gen
  · rw [if_pos hg]
  · rw [if_neg hg]
    by_cases hm : s.policy = .mixed
    · rw [if_pos hm]
    · rw [if_neg hm]

theorem enforce_gen (g : Nat) (s : Board) : (enforce g s).gen = s.gen := by
  unfold enforce
  by_cases hg : g ≠ s.gen
  · rw [if_pos hg]
  · rw [if_neg hg]
    by_cases hm : s.policy = .mixed
    · rw [if_pos hm]
    · rw [if_neg hm]

theorem enforce_policy (g : Nat) (s : Board) : (enforce g s).policy = s.policy := by
  unfold enforce
  by_cases hg : g ≠ s.gen
  · rw [if_pos hg]
  · rw [if_neg hg]
    by_cases hm : s.policy = .mixed
    · rw [if_pos hm]
    · rw [if_neg hm]

theorem enforce_allowAutoSelect (g : Nat) (s : Board) :
    (enforce g s).allowAutoSelect = s.allowAutoSelect := by
  unfold enforce
  by_cases hg : g ≠ s.gen
  · rw [if_pos hg]
  · rw [if_neg hg]
    by_cases hm : s.policy = .mixed
    · rw [if_pos hm]
    · rw [if_neg hm]

theorem enforce_isClearing (g : Nat) (s : Board) : (enforce g s).isClearing = s.isClearing := by
  unfold enforce
  by_cases hg : g ≠ s.gen
  · rw [if_pos hg]
  · rw [if_neg hg]
    by_cases hm : s.policy = .mixed
    · rw [if_pos hm]
    · rw [if_neg hm]

theorem enforceRetries_active (s : Board) : (enforceRetries s).active = s.active := by
  unfold enforceRetries
  rw [enforce_active]

theorem enforceRetries_gen (s : Board) : (enforceRetries s).gen = s.gen + 1 := by
  unfold enforceRetries
  rw [enforce_gen]

theorem enforceRetries_policy (s : Board) : (enforceRetries s).policy = s.policy := by
  unfold enforceRetries
  rw [enforce_policy]

theorem enforceRetries_allowAutoSelect (s : Board) :
    (enforceRetries s).allowAutoSelect = s.allowAutoSelect := by
  unfold enforceRetries
  rw [enforce_allowAutoSelect]

theorem enforceRetries_isClearing (s : Board) : (enforceRetries s).isClearing = s.isClearing := by
  unfold enforceRetries
  rw [enforce_isClearing]

/-- Under single policy with an active tile, the current-generation pass
makes exactly the active-id tiles active and hard-mutes the rest. -/
theorem enforce_single_some {s : Board} {a : Nat} (hp : s.policy = .single)
    (ha : s.active = some a) :
    enforce s.gen s =
      { s with tiles := s.tiles.map fun t =>
          if t.id = a then makeActive s.activeVolume t else hardMute t } := by
  have hm : ¬ s.policy = .mixed := by rw [hp]; simp
  unfold enforce
  rw [if_neg (by simp), if_neg hm]
  simp only [ha, List.map_map]
  congr 1
  refine List.map_congr_left fun t ht => ?_
  by_cases h : t.id = a
  · simp [Function.comp, h]
  · have h2 : ¬ some a = some t.id := by simp; exact fun hh => h hh.symm
    simp only [Function.comp, if_neg h2]
    rw [if_neg h, if_neg (show ¬ (hardMute t).id = a from h)]

/-- Under single policy with no active tile, the current-generation pass
hard-mutes every tile. -/
theorem enforce_single_none {s : Board} (hp : s.policy = .single) (ha : s.active = none) :
    enforce s.gen s = { s with tiles := s.tiles.map hardMute } := by
  have hm : ¬ s.policy = .mixed := by rw [hp]; simp
  unfold enforce
  rw [if_neg (by simp), if_neg hm]
  simp [ha]

theorem toggleMuteSingle_policy (tid : Nat) (s : Board) :
    (toggleMuteSingle tid s).policy = s.policy := by
  unfold toggleMuteSingle
  by_cases hc : s.isClearing
  · rw [if_pos hc]
  · rw [if_neg hc]
    by_cases hm : s.policy = .mixed
    · rw [if_pos hm]
    · rw [if_neg hm]
      by_cases ha : s.active = some tid
      · rw [if_pos ha, enforceRetries_policy]
      · rw [if_neg ha, enforceRetries_policy]

theorem toggleMuteSingle_isClearing (tid : Nat) (s : Board) :
    (toggleMuteSingle tid s).isClearing = s.isClearing := by
  unfold toggleMuteSingle
  by_cases hc : s.isClearing
  · rw [if_pos hc]
  · rw [if_neg hc]
    by_cases hm : s.policy = .mixed
    · rw [if_pos hm]
    · rw [if_neg hm]
      by_cases ha : s.active = some tid
      · rw [if_pos ha, enforceRetries_isClearing]
      · rw [if_neg ha, enforceRetries_isClearing]

/-- Under single policy (and not clearing) a select always bumps the
generation by one. -/
theorem toggleMuteSingle_gen {tid : Nat} {s : Board} (hc : s.isClearing = false)
    (hp : s.policy = .single) : (toggleMuteSingle tid s).gen = s.gen + 1 := by
  have hm : ¬ s.policy = .mixed := by rw [hp]; simp
  unfold toggleMuteSingle
  rw [if_neg (by simp [hc]), if_neg hm]
  by_cases ha : s.active = some tid
  · rw [if_pos ha, enforceRetries_gen]
  · rw [if_neg ha, enforceRetries_gen]

/-- Under single policy selecting a non-active tile makes it active. -/
theorem toggleMuteSingle_active {tid : Nat} {s : Board} (hc : s.isClearing = false)
    (hp : s.policy = .single) (h : s.active ≠ some tid) :
    (toggleMuteSingle tid s).active = some tid := by
  have hm : ¬ s.policy = .mixed := by rw [hp]; simp
  unfold toggleMuteSingle
  rw [if_neg (by simp [hc]), if_neg hm, if_neg h, enforceRetries_active]

/-- Under single policy selecting the active tile deactivates it. -/
theorem toggleMuteSingle_active_self {tid : Nat} {s : Board} (hc : s.isClearing = false)
    (hp : s.policy = .single) (h : s.active = some tid) :
    (toggleMuteSingle tid s).active = none := by
  have hm : ¬ s.policy = .mixed := by rw [hp]; simp
  unfold toggleMuteSingle
  rw [if_neg (by simp [hc]), if_neg hm, if_pos h, enforceRetries_active]

/-- Mixed policy: a retry-scheduling pass only bumps the generation. -/
theorem enforceRetries_mixed {s : Board} (hp : s.policy = .mixed) :
    enforceRetries s = { s with gen := s.gen + 1 } := by
  unfold enforceRetries
  exact enforce_mixed hp

/-- Single policy with an active tile: a retry-scheduling pass bumps the
generation and applies the decision. -/
theorem enforceRetries_single_some {s : Board} {a : Nat} (hp : s.policy = .single)
    (ha : s.active = some a) :
    enforceRetries s =
      { s with
        gen := s.gen + 1
        tiles := s.tiles.map fun t =>
          if t.id = a then makeActive s.activeVolume t else hardMute t } := by
  unfold enforceRetries
  exact @enforce_single_some { s with gen := s.gen + 1 } a hp ha

/-- Single policy with no active tile: a retry-scheduling pass bumps the
generation and hard-mutes everything. -/
theorem enforceRetries_single_none {s : Board} (hp : s.policy = .single)
    (ha : s.active = none) :
    enforceRetries s =
      { s with
        gen := s.gen + 1
        tiles := s.tiles.map hardMute } := by
  unfold enforceRetries
  exact @enforce_single_none { s with gen := s.gen + 1 } hp ha

/-- A concrete two-tile board used by the witnesses. -/
def sampleBoard : Board :=
  { tiles := [⟨1, false, 85⟩, ⟨2, true, 0⟩], active := some 1, allowAutoSelect := true,
    gen := 1, policy := .single, activeVolume := 85, volumeDefault := 85, isClearing := false }

/-! ## Claim theorems -/

/-- **C1** For every enforcement pass scheduled under a generation value
`g`, if the global enforcement generation counter has advanced past `g`
by the time the pass runs, the pass changes nothing (no tile state, no
active-tile reference); in particular after select A immediately
followed by select B, the pass scheduled by A's select is a no-op on the
resulting state and B's decision (B active) is the one in effect. -/
theorem enforcement_stale_generation_is_noop (s : Board) (g : Nat) (hg : g < s.gen) :
    enforce g s = s ∧
    ∀ (s₀ : Board) (a b : Nat), s₀.isClearing = false → s₀.policy = .single → a ≠ b →
      enforce (toggleMuteSingle a s₀).gen (toggleMuteSingle b (toggleMuteSingle a s₀)) =
          toggleMuteSingle b (toggleMuteSingle a s₀) ∧
        (toggleMuteSingle b (toggleMuteSingle a s₀)).active = some b := by
  refine ⟨enforce_stale (Nat.ne_of_lt hg), ?_⟩
  intro s₀ a b hc hp hab
  have hc₁ : (toggleMuteSingle a s₀).isClearing = false := by
    rw [toggleMuteSingle_isClearing]; exact hc
  have hp₁ : (toggleMuteSingle a s₀).policy = .single := by
    rw [toggleMuteSingle_policy]; exact hp
  have hg₂ : (toggleMuteSingle b (toggleMuteSingle a s₀)).gen = (toggleMuteSingle a s₀).gen + 1 :=
    toggleMuteSingle_gen hc₁ hp₁
  have hact : (toggleMuteSingle a s₀).active ≠ some b := by
    by_cases ha : s₀.active = some a
    · rw [toggleMuteSingle_active_self hc hp ha]; simp
    · rw [toggleMuteSingle_active hc hp ha]
      simp
      exact fun h => hab h
  refine ⟨enforce_stale ?_, toggleMuteSingle_active hc₁ hp₁ hact⟩
  rw [hg₂]
  omega

/-- Witness for C1 at a concrete board and generation. -/
theorem enforcement_stale_generation_is_noop_witness :
    enforce 0 sampleBoard = sampleBoard :=
  (enforcement_stale_generation_is_noop sampleBoard 0 (by decide)).1

theorem setMuteState_id (m : Bool) (t : Tile) : (setMuteState m t).id = t.id := by
  cases m <;> simp [setMuteState, hardMute]

theorem setMuteState_muted (m : Bool) (t : Tile) : (setMuteState m t).muted = m := by
  cases m <;> simp [setMuteState, hardMute]

/-- **C3** Select semantics: under mixed policy a select toggles only
the selected tile's mute flag and nothing else; under single policy,
selecting the active tile deactivates (no active tile, auto-select
disabled) and selecting a non-active tile activates it, re-enables
auto-select and leaves every other tile muted. -/
theorem select_tile_semantics (s : Board) (tid : Nat) (hc : s.isClearing = false) :
    (s.policy = .mixed →
      (toggleMuteSingle tid s).active = s.active ∧
      (toggleMuteSingle tid s).gen = s.gen ∧
      (∀ (i : Nat) (t : Tile), s.tiles[i]? = some t → t.id ≠ tid →
        (toggleMuteSingle tid s).tiles[i]? = some t) ∧
      (∀ (i : Nat) (t : Tile), s.tiles[i]? = some t → t.id = tid →
        ∃ t2, (toggleMuteSingle tid s).tiles[i]? = some t2 ∧
          t2.id = t.id ∧ t2.muted = !t.muted)) ∧
    (s.policy = .single → s.active = some tid →
      (toggleMuteSingle tid s).active = none ∧
      (toggleMuteSingle tid s).allowAutoSelect = false) ∧
    (s.policy = .single → s.active ≠ some tid →
      (toggleMuteSingle tid s).active = some tid ∧
      (toggleMuteSingle tid s).allowAutoSelect = true ∧
      ∀ t2 ∈ (toggleMuteSingle tid s).tiles, t2.id ≠ tid → t2.muted = true) := by
  refine ⟨?_, ?_, ?_⟩
  · intro hm
    have hres : toggleMuteSingle tid s =
        { s with tiles := s.tiles.map fun t =>
            if t.id = tid then setMuteState (!t.muted) t else t } := by
      unfold toggleMuteSingle
      rw [if_neg (by simp [hc]), if_pos hm]
    refine ⟨by rw [hres], by rw [hres], ?_, ?_⟩
    · intro i t ht htid
      rw [hres]
      show (List.map _ s.tiles)[i]? = some t
      rw [List.getElem?_map, ht]
      simp [htid]
    · intro i t ht htid
      refine ⟨setMuteState (!t.muted) t, ?_, setMuteState_id _ _, setMuteState_muted _ _⟩
      rw [hres]
      show (List.map _ s.tiles)[i]? = some _
      rw [List.getElem?_map, ht]
      simp [htid]
  · intro hp ha
    have hm : ¬ s.policy = .mixed := by rw [hp]; simp
    have hres : toggleMuteSingle tid s =
        enforceRetries
          { s with
            tiles := s.tiles.map fun t => if t.id = tid then setMuteState true t else t,
            active := none,
            allowAutoSelect := false } := by
      unfold toggleMuteSingle
      rw [if_neg (by simp [hc]), if_neg hm, if_pos ha]
    rw [hres, enforceRetries_active, enforceRetries_allowAutoSelect]
    exact ⟨rfl, rfl⟩
  · intro hp ha
    have hm : ¬ s.policy = .mixed := by rw [hp]; simp
    have hres : toggleMuteSingle tid s =
        enforceRetries { s with active := some tid, allowAutoSelect := true } := by
      unfold toggleMuteSingle
      rw [if_neg (by simp [hc]), if_neg hm, if_neg ha]
    refine ⟨by rw [hres, enforceRetries_active], by rw [hres, enforceRetries_allowAutoSelect], ?_⟩
    intro t2 ht2 htid
    rw [hres, @enforceRetries_single_some { s with active := some tid, allowAutoSelect := true }
      tid hp rfl] at ht2
    simp only [List.mem_map] at ht2
    obtain ⟨t0, _, ht0⟩ := ht2
    by_cases h0 : t0.id = tid
    · exfalso
      apply htid
      rw [← ht0, if_pos h0]
      exact h0
    · rw [← ht0, if_neg h0]
      rfl

/-- Witness for C3 on the sample board. -/
theorem select_tile_semantics_witness :
    ((toggleMuteSingle 2 sampleBoard).active = some 2 ∧
      (toggleMuteSingle 2 sampleBoard).allowAutoSelect = true ∧
      ∀ t2 ∈ (toggleMuteSingle 2 sampleBoard).tiles, t2.id ≠ 2 → t2.muted = true) :=
  (select_tile_semantics sampleBoard 2 (by decide)).2.2 rfl (by decide)

/-- **C4** Removing the active tile while others remain makes the first
remaining tile (in registry order) active and re-enables auto-select;
removing the active tile when no tiles remain leaves no tile active;
removing a non-active tile does not change which tile is active. -/
theorem remove_tile_active_transfer (s : Board) (tid : Nat) (hc : s.isClearing = false)
    (_hp : s.policy = .single) :
    (s.active = some tid → tid ∈ s.tiles.map Tile.id →
      ((s.tiles.eraseP fun t => t.id = tid) ≠ [] →
        (removeTile tid s).active =
            ((s.tiles.eraseP fun t => t.id = tid).head?.map Tile.id) ∧
          (removeTile tid s).allowAutoSelect = true) ∧
      ((s.tiles.eraseP fun t => t.id = tid) = [] → (removeTile tid s).active = none)) ∧
    (s.active ≠ some tid → (removeTile tid s).active = s.active) := by
  constructor
  · intro ha hmem
    constructor
    · intro hne
      have hres : removeTile tid s =
          enforceRetries
            { s with
              tiles := s.tiles.eraseP fun t => t.id = tid,
              active := ((s.tiles.eraseP fun t => t.id = tid).head?.map Tile.id),
              allowAutoSelect := true } := by
        unfold removeTile
        rw [if_neg (by simp [hc]), if_pos hmem]
        simp only [if_pos ha, if_pos (And.intro ha hne)]
      rw [hres, enforceRetries_active, enforceRetries_allowAutoSelect]
      exact ⟨rfl, rfl⟩
    · intro hnil
      have hres : removeTile tid s =
          enforceRetries
            { s with
              tiles := s.tiles.eraseP fun t => t.id = tid,
              active := none } := by
        unfold removeTile
        rw [if_neg (by simp [hc]), if_pos hmem]
        simp only [if_pos ha]
        rw [if_neg (by simp [hnil])]
      rw [hres, enforceRetries_active]
  · intro ha
    by_cases hmem : tid ∈ s.tiles.map Tile.id
    · have hres : removeTile tid s =
          enforceRetries
            { s with
              tiles := s.tiles.eraseP fun t => t.id = tid,
              active := s.active } := by
        unfold removeTile
        rw [if_neg (by simp [hc]), if_pos hmem]
        simp only [if_neg ha]
        rw [if_neg (by simp [ha])]
      rw [hres, enforceRetries_active]
    · unfold removeTile
      rw [if_neg (by simp [hc]), if_neg hmem]

/-- Witness for C4: removing the active tile of the sample board. -/
theorem remove_tile_active_transfer_witness :
    (removeTile 1 sampleBoard).active =
        ((sampleBoard.tiles.eraseP fun t => t.id = 1).head?.map Tile.id) ∧
      (removeTile 1 sampleBoard).allowAutoSelect = true :=
  ((remove_tile_active_transfer sampleBoard 1 (by decide) rfl).1 rfl (by decide)).1 (by decide)

/-- **C10** A tile created on an empty board is constructed unmuted and
is immediately the active tile with auto-select enabled, without any
playable/started callback being involved; a tile created while other
tiles exist is constructed muted (and the enforcement pass keeps it
muted, since it is not the active tile). -/
theorem create_tile_first_active_rest_muted (s : Board) (tid : Nat)
    (hfresh : tid ∉ s.tiles.map Tile.id) (hactive : s.active ≠ some tid) :
    (s.tiles = [] →
      (createTile tid s).active = some tid ∧
      (createTile tid s).allowAutoSelect = true ∧
      (createTile tid s).tiles.map (fun t => (t.id, t.muted)) = [(tid, false)]) ∧
    (s.tiles ≠ [] → ∀ t ∈ (createTile tid s).tiles, t.id = tid → t.muted = true) := by
  constructor
  · intro h0
    have hres : createTile tid s =
        enforceRetries
          { s with
            tiles := [⟨tid, false, s.volumeDefault⟩],
            active := some tid,
            allowAutoSelect := true } := by
      unfold createTile
      rw [h0]
      simp
    rw [hres, enforceRetries_active, enforceRetries_allowAutoSelect]
    refine ⟨rfl, rfl, ?_⟩
    by_cases hpol : s.policy = .mixed
    · rw [@enforceRetries_mixed { s with
        tiles := [⟨tid, false, s.volumeDefault⟩], active := some tid,
        allowAutoSelect := true } hpol]
      simp
    · have hpol2 : Board.policy { s with
          tiles := [⟨tid, false, s.volumeDefault⟩], active := some tid,
          allowAutoSelect := true } = .single := by
        cases hq : s.policy
        · rfl
        · exact absurd hq hpol
      rw [@enforceRetries_single_some _ tid hpol2 rfl]
      simp [makeActive]
  · intro hne t ht htid
    have hisEmpty : s.tiles.isEmpty = false := by
      cases hq : s.tiles
      · exact absurd hq hne
      · rfl
    have hres : createTile tid s =
        enforceRetries { s with tiles := s.tiles ++ [⟨tid, true, 0⟩] } := by
      unfold createTile
      rw [hisEmpty]
      simp
    rw [hres] at ht
    by_cases hpol : s.policy = .mixed
    · rw [@enforceRetries_mixed { s with tiles := s.tiles ++ [⟨tid, true, 0⟩] } hpol] at ht
      simp only [List.mem_append, List.mem_singleton] at ht
      rcases ht with hmem | hnew
      · exact absurd (List.mem_map.mpr ⟨t, hmem, htid⟩) hfresh
      · rw [hnew]
    · have hpol2 : Board.policy { s with tiles := s.tiles ++ [⟨tid, true, 0⟩] } = .single := by
        cases hq : s.policy
        · rfl
        · exact absurd hq hpol
      cases ha : s.active with
      | none =>
        rw [@enforceRetries_single_none { s with tiles := s.tiles ++ [⟨tid, true, 0⟩] } hpol2 ha]
          at ht
        simp only [List.mem_map] at ht
        obtain ⟨t0, _, ht0⟩ := ht
        rw [← ht0]
        rfl
      | some a =>
        rw [@enforceRetries_single_some { s with tiles := s.tiles ++ [⟨tid, true, 0⟩] } a hpol2 ha]
          at ht
        simp only [List.mem_map, List.mem_append, List.mem_singleton] at ht
        obtain ⟨t0, ht0mem, ht0⟩ := ht
        by_cases h0 : t0.id = a
        · exfalso
          rcases ht0mem with hold | hnew
          · apply hfresh
            have hid : t.id = t0.id := by rw [← ht0, if_pos h0]; rfl
            have hid2 : t0.id = tid := by rw [← hid, htid]
            exact List.mem_map.mpr ⟨t0, hold, hid2⟩
          · apply hactive
            have hid2 : a = tid := by rw [← h0, hnew]
            rw [ha, hid2]
        · rw [← ht0, if_neg h0]
          rfl

/-- Witness for C10: the tile added to the non-empty sample board is
muted. -/
theorem create_tile_first_active_rest_muted_witness :
    Tile.muted ⟨3, true, 0⟩ = true :=
  (create_tile_first_active_rest_muted sampleBoard 3 (by decide) (by decide)).2 (by decide)
    ⟨3, true, 0⟩ (by decide) (by decide)

/-- **C2** Under single policy, after an enforcement pass at the
current generation every tile other than the active one is muted, the
active tile (if present) is unmuted with the clamped target volume
applied, and at most one tile is unmuted; a mixed-policy pass leaves the
board unchanged (so no such invariant is imposed). -/
theorem single_policy_at_most_one_unmuted (s : Board) (hp : s.policy = .single)
    (hnd : (s.tiles.map Tile.id).Nodup) :
    (∀ t ∈ (enforce s.gen s).tiles, (enforce s.gen s).active ≠ some t.id → t.muted = true) ∧
    (∀ t ∈ (enforce s.gen s).tiles, (enforce s.gen s).active = some t.id →
      t.muted = false ∧ t.volume = clampVol s.activeVolume) ∧
    ((enforce s.gen s).tiles.filter fun t => !t.muted).length ≤ 1 ∧
    (∀ s2 : Board, s2.policy = .mixed → enforce s2.gen s2 = s2) := by
  cases ha : s.active with
  | none =>
    rw [enforce_single_none hp ha]
    refine ⟨?_, ?_, ?_, fun s2 h2 => enforce_mixed h2⟩
    · intro t ht _
      simp only [List.mem_map] at ht
      obtain ⟨t0, _, ht0⟩ := ht
      rw [← ht0]
      rfl
    · intro t ht hat
      rw [show Board.active { s with tiles := s.tiles.map hardMute } = s.active from rfl,
        ha] at hat
      exact absurd hat (by simp)
    · have hall : ∀ t ∈ (s.tiles.map hardMute), (!t.muted) = false := by
        intro t ht
        simp only [List.mem_map] at ht
        obtain ⟨t0, _, ht0⟩ := ht
        rw [← ht0]
        rfl
      rw [show Board.tiles { s with tiles := s.tiles.map hardMute } = s.tiles.map hardMute
        from rfl]
      rw [List.filter_eq_nil_iff.mpr fun t ht => by rw [hall t ht]; simp]
      simp
  | some a =>
    rw [enforce_single_some hp ha]
    have hact : Board.active { s with tiles := s.tiles.map (fun t =>
        if t.id = a then makeActive s.activeVolume t else hardMute t) } = some a := ha
    refine ⟨?_, ?_, ?_, fun s2 h2 => enforce_mixed h2⟩
    · intro t ht hne
      rw [hact] at hne
      simp only [List.mem_map] at ht
      obtain ⟨t0, _, ht0⟩ := ht
      by_cases h0 : t0.id = a
      · exfalso
        apply hne
        rw [← ht0, if_pos h0, show (makeActive s.activeVolume t0).id = t0.id from rfl, h0]
      · rw [← ht0, if_neg h0]
        rfl
    · intro t ht hat
      rw [hact] at hat
      simp only [Option.some.injEq] at hat
      simp only [List.mem_map] at ht
      obtain ⟨t0, _, ht0⟩ := ht
      by_cases h0 : t0.id = a
      · rw [← ht0, if_pos h0]
        exact ⟨rfl, rfl⟩
      · exfalso
        apply h0
        have hid : t.id = t0.id := by rw [← ht0, if_neg h0]; rfl
        rw [← hid, ← hat]
    · rw [show Board.tiles { s with tiles := s.tiles.map fun t =>
          if t.id = a then makeActive s.activeVolume t else hardMute t } =
          s.tiles.map fun t => if t.id = a then makeActive s.activeVolume t else hardMute t
        from rfl]
      rw [← List.countP_eq_length_filter, List.countP_map]
      have hcongr : List.countP ((fun t => !t.muted) ∘ fun t =>
          if t.id = a then makeActive s.activeVolume t else hardMute t) s.tiles =
          List.countP ((fun i => i == a) ∘ Tile.id) s.tiles := by
        apply List.countP_congr
        intro t _
        by_cases h0 : t.id = a
        · simp [Function.comp, h0, makeActive]
        · simp [Function.comp, h0, hardMute]
      rw [hcongr, ← List.countP_map]
      have := List.nodup_iff_count_le_one.mp hnd a
      rw [List.count] at this
      exact this

/-- Witness for C2 on the sample board. -/
theorem single_policy_at_most_one_unmuted_witness :
    ((enforce sampleBoard.gen sampleBoard).tiles.filter fun t => !t.muted).length ≤ 1 :=
  (single_policy_at_most_one_unmuted sampleBoard rfl (by decide)).2.2.1

/-- **C9** Auto layout uses `columns = isqrt n` and
`rows = ceil(n / columns)` for `n ≥ 1`; the row-major placement has no
duplicate cell, stays inside the grid, and fills cells consecutively
(no gaps); `layout(7, auto)` gives 2 columns and 4 rows; detached
(picture-in-picture) tiles are excluded from the placement entirely. -/
theorem grid_auto_layout (n : Nat) (hn : 1 ≤ n) :
    (gridDims .auto n).1 = Nat.sqrt n ∧
    (gridDims .auto n).2 = ceilDiv n (Nat.sqrt n) ∧
    ((List.range n).map (gridCell (gridDims .auto n).1)).Nodup ∧
    (∀ i < n, (gridCell (gridDims .auto n).1 i).1 < (gridDims .auto n).2 ∧
      (gridCell (gridDims .auto n).1 i).2 < (gridDims .auto n).1) ∧
    (∀ i < n, (gridCell (gridDims .auto n).1 i).1 * (gridDims .auto n).1 +
      (gridCell (gridDims .auto n).1 i).2 = i) ∧
    gridDims .auto 7 = (2, 4) ∧
    (∀ (mode : LayoutMode) (tiles pip : List Nat),
      (placeTiles mode tiles pip).map (fun x => x.1) =
        tiles.filter fun t => ¬ pip.contains t) := by
  have hsq : 1 ≤ Nat.sqrt n := by
    rw [Nat.le_sqrt]
    exact hn
  have hmax : max 1 (Nat.sqrt n) = Nat.sqrt n := Nat.max_eq_right hsq
  have hc : (gridDims .auto n).1 = Nat.sqrt n := by
    show max 1 (Nat.sqrt n) = Nat.sqrt n
    exact hmax
  have hcpos : 0 < (gridDims .auto n).1 := by rw [hc]; exact hsq
  have hrows : (gridDims .auto n).2 = ceilDiv n (Nat.sqrt n) := by
    show ceilDiv n (max 1 (Nat.sqrt n)) = ceilDiv n (Nat.sqrt n)
    rw [hmax]
  refine ⟨hc, hrows, ?_, ?_, ?_, ?_, ?_⟩
  · refine List.Nodup.map ?_ (List.nodup_range n)
    intro i j hij
    have h1 := congrArg Prod.fst hij
    have h2 := congrArg Prod.snd hij
    simp only [gridCell] at h1 h2
    calc i = (gridDims .auto n).1 * (i / (gridDims .auto n).1) + i % (gridDims .auto n).1 :=
        (Nat.div_add_mod i (gridDims .auto n).1).symm
      _ = (gridDims .auto n).1 * (j / (gridDims .auto n).1) + j % (gridDims .auto n).1 := by
        rw [h1, h2]
      _ = j := Nat.div_add_mod j (gridDims .auto n).1
  · intro i hi
    constructor
    · show i / (gridDims .auto n).1 < (gridDims .auto n).2
      have hub : n ≤ ceilDiv n (Nat.sqrt n) * Nat.sqrt n := by
        unfold ceilDiv
        rw [Nat.mul_comm]
        have hmod := Nat.div_add_mod (n + Nat.sqrt n - 1) (Nat.sqrt n)
        have hlt := Nat.mod_lt (n + Nat.sqrt n - 1) (show 0 < Nat.sqrt n from hsq)
        omega
      rw [hrows, hc]
      rw [Nat.div_lt_iff_lt_mul (show 0 < Nat.sqrt n from hsq)]
      omega
    · show i % (gridDims .auto n).1 < (gridDims .auto n).1
      exact Nat.mod_lt i hcpos
  · intro i _
    show i / (gridDims .auto n).1 * (gridDims .auto n).1 + i % (gridDims .auto n).1 = i
    rw [Nat.mul_comm]
    exact Nat.div_add_mod i (gridDims .auto n).1
  · have h7 : Nat.sqrt 7 = 2 := (Nat.eq_sqrt.mpr (by norm_num)).symm
    show (max 1 (Nat.sqrt 7), ceilDiv 7 (max 1 (Nat.sqrt 7))) = (2, 4)
    rw [h7]
    rfl
  · intro mode tiles pip
    unfold placeTiles
    rw [List.map_map]
    have : ((fun x : Nat × Nat × Nat => x.1) ∘ fun p : Nat × Nat =>
        (p.2, p.1 / (gridDims mode (tiles.filter fun t => ¬ pip.contains t).length).1,
          p.1 % (gridDims mode (tiles.filter fun t => ¬ pip.contains t).length).1)) =
        Prod.snd := rfl
    rw [this, List.enum_map_snd]

/-- Witness for C9 at `n = 7`. -/
theorem grid_auto_layout_witness : gridDims .auto 7 = (2, 4) :=
  (grid_auto_layout 7 (by decide)).2.2.2.2.2.1

/-! ## Helper lemmas: list scanning -/

theorem takeWhile_append_all {p : Char → Bool} {lit : List Char} (s : List Char)
    (hall : ∀ c ∈ lit, p c = true) :
    (lit ++ s).takeWhile p = lit ++ s.takeWhile p := by
  rw [List.takeWhile_append, if_pos (by rw [List.takeWhile_eq_self_iff.mpr hall])]

theorem dropWhile_append_all {p : Char → Bool} {lit : List Char} (s : List Char)
    (hall : ∀ c ∈ lit, p c = true) :
    (lit ++ s).dropWhile p = s.dropWhile p := by
  rw [List.dropWhile_append, if_pos (by rw [List.dropWhile_eq_nil_iff.mpr hall]; rfl)]

theorem takeWhile_append_stop {p : Char → Bool} {lit : List Char} (s : List Char)
    (h : (lit.takeWhile p).length ≠ lit.length) :
    (lit ++ s).takeWhile p = lit.takeWhile p := by
  rw [List.takeWhile_append, if_neg h]

theorem dropWhile_append_stop {p : Char → Bool} {lit : List Char} (s : List Char)
    (h : (lit.takeWhile p).length ≠ lit.length) :
    (lit ++ s).dropWhile p = lit.dropWhile p ++ s := by
  rw [List.dropWhile_append, if_neg ?_]
  intro hempty
  apply h
  have hnil : lit.dropWhile p = [] := by
    cases hq : lit.dropWhile p
    · rfl
    · rw [hq] at hempty
      exact absurd hempty (by simp)
  have := List.takeWhile_append_dropWhile p lit
  rw [hnil, List.append_nil] at this
  rw [this]

theorem take_min (l : List Char) (n : Nat) : l.take (min l.length n) = l.take n := by
  by_cases h : n ≤ l.length
  · rw [Nat.min_eq_right h]
  · rw [Nat.min_eq_left (by omega), List.take_length, List.take_of_length_le (by omega)]

theorem dropPref_append_some {pre lit : List Char} (s : List Char) (h : pre = lit) :
    dropPref pre (lit ++ s) = some s := by
  subst h
  unfold dropPref
  rw [if_pos (List.take_left pre s), List.drop_left]

theorem dropPref_none_of_mism {pre lit : List Char} (s : List Char)
    (h : lit.take pre.length ≠ pre.take lit.length) :
    dropPref pre (lit ++ s) = none := by
  unfold dropPref
  rw [if_neg ?_]
  intro hcond
  apply h
  have h2 := congrArg (List.take lit.length) hcond
  rw [List.take_take, List.take_append_of_le_length (Nat.min_le_left _ _), take_min] at h2
  exact h2

/-! ## Helper lemmas: characters -/

/-- An id character is none of the URL/markup delimiters. -/
theorem idChar_spec {c : Char} (h : idChar c = true) :
    c ≠ ':' ∧ c ≠ '/' ∧ c ≠ '?' ∧ c ≠ '#' ∧ c ≠ '&' ∧ c ≠ '=' ∧ c ≠ '"' ∧ c ≠ '<' ∧
      c ≠ '>' ∧ c ≠ ',' := by
  refine ⟨?_, ?_, ?_, ?_, ?_, ?_, ?_, ?_, ?_, ?_⟩ <;>
    · intro heq
      subst heq
      exact absurd h (by decide)

theorem ofNat_toNat_of_bounds (n : Nat) (h1 : 97 ≤ n) (h2 : n ≤ 122) :
    (Char.ofNat n).toNat = n := by
  interval_cases n <;> decide

/-- Lowercasing cannot produce `<` from a character other than `<`. -/
theorem toLower_ne_lt {c : Char} (h : c ≠ '<') : c.toLower ≠ '<' := by
  unfold Char.toLower
  simp only []
  split
  · rename_i hc
    intro heq
    have h1 := ofNat_toNat_of_bounds (c.toNat + 32) (by omega) (by omega)
    rw [heq] at h1
    have h2 : ('<' : Char).toNat = 60 := by decide
    omega
  · exact h

/-! ## Helper lemmas: the video-id regex scan -/

/-- A string with no `<`-sounding character has no iframe match. -/
theorem findIframeSrc_none :
    ∀ (s : List Char), (∀ c ∈ s, c.toLower ≠ '<') → findIframeSrc s = none := by
  intro s
  induction s with
  | nil => intro _; rfl
  | cons c cs ih =>
    intro h
    have hd : dropPrefCI (strL "<iframe") (c :: cs) = none := by
      unfold dropPrefCI
      rw [if_neg ?_]
      intro hc
      have h5 : (((c :: cs).take (strL "<iframe").length).map Char.toLower).head? =
          some c.toLower := rfl
      have h6 : (strL "<iframe").head? = some '<' := rfl
      rw [hc, h6] at h5
      exact h c (List.mem_cons_self c cs) (Option.some.inj h5.symm)
    unfold findIframeSrc
    rw [hd]
    exact ih fun x hx => h x (List.mem_cons_of_mem c hx)

/-- The thirty prefix alternatives of the video-id regex, flattened in
backtracking order. -/
def ytCombosList : List (List Char) :=
  [strL "https://www.youtube.com/watch?v=", strL "https://www.youtube.com/v/",
    strL "https://www.youtube.com/embed/", strL "https://www.youtube.com/shorts/",
    strL "https://www.youtu.be/",
    strL "https://youtube.com/watch?v=", strL "https://youtube.com/v/",
    strL "https://youtube.com/embed/", strL "https://youtube.com/shorts/",
    strL "https://youtu.be/",
    strL "http://www.youtube.com/watch?v=", strL "http://www.youtube.com/v/",
    strL "http://www.youtube.com/embed/", strL "http://www.youtube.com/shorts/",
    strL "http://www.youtu.be/",
    strL "http://youtube.com/watch?v=", strL "http://youtube.com/v/",
    strL "http://youtube.com/embed/", strL "http://youtube.com/shorts/",
    strL "http://youtu.be/",
    strL "www.youtube.com/watch?v=", strL "www.youtube.com/v/",
    strL "www.youtube.com/embed/", strL "www.youtube.com/shorts/",
    strL "www.youtu.be/",
    strL "youtube.com/watch?v=", strL "youtube.com/v/",
    strL "youtube.com/embed/", strL "youtube.com/shorts/",
    strL "youtu.be/"]

theorem ytCombos_eq : ytCombos = ytCombosList := by decide

theorem tryYt_hit {pre lit : List Char} (id : List Char) (hpre : pre = lit)
    (h11 : id.length = 11) (hall : id.all idChar = true) :
    tryYtPrefix (lit ++ id) pre = some id := by
  subst hpre
  unfold tryYtPrefix
  rw [dropPref_append_some id rfl]
  show idTake id = some id
  unfold idTake
  have htake : id.take 11 = id := by
    rw [← h11]
    exact List.take_length id
  rw [if_pos ⟨by rw [htake, h11], by rw [htake]; exact hall⟩, htake]

theorem tryYt_none {pre lit : List Char} (s : List Char)
    (h : lit.take pre.length ≠ pre.take lit.length) :
    tryYtPrefix (lit ++ s) pre = none := by
  unfold tryYtPrefix
  rw [dropPref_none_of_mism s h]

theorem findSome?_append_none {α β : Type} (f : α → Option β) {ps : List α} (qs : List α)
    (h : ∀ p ∈ ps, f p = none) : (ps ++ qs).findSome? f = qs.findSome? f := by
  induction ps with
  | nil => rfl
  | cons p tl ih =>
    rw [List.cons_append, List.findSome?_cons, h p (List.mem_cons_self p tl)]
    exact ih fun x hx => h x (List.mem_cons_of_mem p hx)

/-- Evaluate the video-id regex at a position matching one of the
alternatives, when every earlier alternative mismatches. -/
theorem matchAt_at_zero (lit id : List Char) (pre post : List (List Char))
    (hcombos : ytCombos = pre ++ lit :: post)
    (hmiss : ∀ p ∈ pre, lit.take p.length ≠ p.take lit.length)
    (h11 : id.length = 11) (hall : id.all idChar = true) :
    matchAt (lit ++ id) = some id := by
  unfold matchAt
  rw [hcombos, findSome?_append_none _ _ fun p hp => tryYt_none id (hmiss p hp),
    List.findSome?_cons, tryYt_hit id rfl h11 hall]

theorem searchYt_of_matchAt {s v : List Char} (h : matchAt s = some v) :
    searchYt s = some v := by
  cases s with
  | nil =>
    show matchAt [] = some v
    exact h
  | cons c cs =>
    unfold searchYt
    rw [h]

theorem findIframeSrc_append_none (lit : List Char) (id : List Char)
    (hlit : ∀ x ∈ lit, x.toLower ≠ '<') (hid : ∀ c ∈ id, idChar c = true) :
    findIframeSrc (lit ++ id) = none := by
  apply findIframeSrc_none
  intro c hc
  rcases List.mem_append.mp hc with h | h
  · exact hlit c h
  · exact toLower_ne_lt (idChar_spec (hid c h)).2.2.2.2.2.2.2.1

theorem rstripSlash_append_id (lit : List Char) {id : List Char} (hne : id ≠ [])
    (hid : ∀ c ∈ id, idChar c = true) : rstripSlash (lit ++ id) = lit ++ id := by
  unfold rstripSlash
  rw [List.reverse_append]
  cases hq : id.reverse with
  | nil => exact absurd (by simpa using hq) hne
  | cons c cs =>
    have hcmem : c ∈ id := List.mem_reverse.mp (hq ▸ List.mem_cons_self c cs)
    have hslash : ¬ ((c = '/') = True) := by
      simp only [eq_iff_iff, iff_true]
      exact (idChar_spec (hid c hcmem)).2.1
    rw [List.cons_append, List.dropWhile_cons]
    rw [if_neg (by simpa using (idChar_spec (hid c hcmem)).2.1)]
    rw [← List.cons_append, ← hq, ← List.reverse_append, List.reverse_reverse]

/-- Scheme detection finds nothing when the input has no colon. -/
theorem schemeSplit_schemeless (lit : List Char) (id : List Char)
    (hlit : ∀ x ∈ lit, (decide (x ≠ ':')) = true) (hid : ∀ c ∈ id, idChar c = true) :
    schemeSplit (lit ++ id) = ([], lit ++ id) := by
  unfold schemeSplit
  rw [dropWhile_append_all id hlit]
  rw [List.dropWhile_eq_nil_iff.mpr fun c hc => by
    simp only [decide_eq_true_eq]
    exact (idChar_spec (hid c hc)).1]
  rw [if_neg (by simp)]

/-- A query-free path-plus-id tail passes the fragment and query splits
unchanged. -/
theorem splitAtCharDrop_all (d : Char) (lit : List Char) {id : List Char}
    (hlit : ∀ x ∈ lit, (decide (x ≠ d)) = true)
    (hd : ∀ c ∈ id, c ≠ d) :
    splitAtCharDrop d (lit ++ id) = (lit ++ id, []) := by
  unfold splitAtCharDrop
  rw [takeWhile_append_all id hlit, dropWhile_append_all id hlit]
  rw [List.takeWhile_eq_self_iff.mpr fun c hc => by
    simp only [decide_eq_true_eq]
    exact hd c hc]
  rw [List.dropWhile_eq_nil_iff.mpr fun c hc => by
    simp only [decide_eq_true_eq]
    exact hd c hc]
  rfl

theorem urlparse_watch_form (id : List Char) (hall : id.all idChar = true) :
    urlparseL (strL "https://www.youtube.com/watch?v=" ++ id) =
      ⟨strL "https", strL "www.youtube.com", strL "/watch", strL "v=" ++ id, []⟩ := by
  have hid : ∀ c ∈ id, idChar c = true := fun c hc => List.all_eq_true.mp hall c hc
  have h1 : schemeSplit (strL "https://www.youtube.com/watch?v=" ++ id) =
      (strL "https", strL "//www.youtube.com/watch?v=" ++ id) := by
    unfold schemeSplit
    rw [takeWhile_append_stop id (by decide), dropWhile_append_stop id (by decide)]
    rw [show (strL "https://www.youtube.com/watch?v=").takeWhile (· ≠ ':') = strL "https"
      from by decide]
    rw [show (strL "https://www.youtube.com/watch?v=").dropWhile (· ≠ ':') =
      strL "://www.youtube.com/watch?v=" from by decide]
    rw [if_pos ?_]
    · rw [show toLowerL (strL "https") = strL "https" from by decide,
        show (strL "://www.youtube.com/watch?v=" ++ id).drop 1 =
          strL "//www.youtube.com/watch?v=" ++ id from
          by rw [List.drop_append_of_le_length (by decide)]; rfl]
    · rw [show (strL "://www.youtube.com/watch?v=" ++ id).isEmpty = false from rfl]
      decide
  have h2 : netlocSplit (strL "//www.youtube.com/watch?v=" ++ id) =
      (strL "www.youtube.com", strL "/watch?v=" ++ id) := by
    unfold netlocSplit
    rw [show (strL "//www.youtube.com/watch?v=" ++ id).take 2 = strL "//" from
      by rw [List.take_append_of_le_length (by decide)]; decide]
    rw [if_pos rfl]
    rw [show (strL "//www.youtube.com/watch?v=" ++ id).drop 2 =
      strL "www.youtube.com/watch?v=" ++ id from
      by rw [List.drop_append_of_le_length (by decide)]; rfl]
    rw [takeWhile_append_stop id (by decide), dropWhile_append_stop id (by decide)]
    rw [show (strL "www.youtube.com/watch?v=").takeWhile netlocChar = strL "www.youtube.com"
      from by decide]
    rw [show (strL "www.youtube.com/watch?v=").dropWhile netlocChar = strL "/watch?v="
      from by decide]
  have h3 : splitAtCharDrop '#' (strL "/watch?v=" ++ id) = (strL "/watch?v=" ++ id, []) :=
    splitAtCharDrop_all '#' _ (by decide) fun c hc => (idChar_spec (hid c hc)).2.2.2.1
  have h4 : splitAtCharDrop '?' (strL "/watch?v=" ++ id) =
      (strL "/watch", strL "v=" ++ id) := by
    unfold splitAtCharDrop
    rw [takeWhile_append_stop id (by decide), dropWhile_append_stop id (by decide)]
    rw [show (strL "/watch?v=").takeWhile (· ≠ '?') = strL "/watch" from by decide]
    rw [show (strL "/watch?v=").dropWhile (· ≠ '?') = strL "?v=" from by decide]
    rw [show (strL "?v=" ++ id).drop 1 = strL "v=" ++ id from
      by rw [List.drop_append_of_le_length (by decide)]; rfl]
  simp only [urlparseL, h1, h2, h3, h4]

theorem urlparse_http_watch_form (id : List Char) (hall : id.all idChar = true) :
    urlparseL (strL "http://www.youtube.com/watch?v=" ++ id) =
      ⟨strL "http", strL "www.youtube.com", strL "/watch", strL "v=" ++ id, []⟩ := by
  have hid : ∀ c ∈ id, idChar c = true := fun c hc => List.all_eq_true.mp hall c hc
  have h1 : schemeSplit (strL "http://www.youtube.com/watch?v=" ++ id) =
      (strL "http", strL "//www.youtube.com/watch?v=" ++ id) := by
    unfold schemeSplit
    rw [takeWhile_append_stop id (by decide), dropWhile_append_stop id (by decide)]
    rw [show (strL "http://www.youtube.com/watch?v=").takeWhile (· ≠ ':') = strL "http"
      from by decide]
    rw [show (strL "http://www.youtube.com/watch?v=").dropWhile (· ≠ ':') =
      strL "://www.youtube.com/watch?v=" from by decide]
    rw [if_pos ?_]
    · rw [show toLowerL (strL "http") = strL "http" from by decide,
        show (strL "://www.youtube.com/watch?v=" ++ id).drop 1 =
          strL "//www.youtube.com/watch?v=" ++ id from
          by rw [List.drop_append_of_le_length (by decide)]; rfl]
    · rw [show (strL "://www.youtube.com/watch?v=" ++ id).isEmpty = false from rfl]
      decide
  have h2 : netlocSplit (strL "//www.youtube.com/watch?v=" ++ id) =
      (strL "www.youtube.com", strL "/watch?v=" ++ id) := by
    unfold netlocSplit
    rw [show (strL "//www.youtube.com/watch?v=" ++ id).take 2 = strL "//" from
      by rw [List.take_append_of_le_length (by decide)]; decide]
    rw [if_pos rfl]
    rw [show (strL "//www.youtube.com/watch?v=" ++ id).drop 2 =
      strL "www.youtube.com/watch?v=" ++ id from
      by rw [List.drop_append_of_le_length (by decide)]; rfl]
    rw [takeWhile_append_stop id (by decide), dropWhile_append_stop id (by decide)]
    rw [show (strL "www.youtube.com/watch?v=").takeWhile netlocChar = strL "www.youtube.com"
      from by decide]
    rw [show (strL "www.youtube.com/watch?v=").dropWhile netlocChar = strL "/watch?v="
      from by decide]
  have h3 : splitAtCharDrop '#' (strL "/watch?v=" ++ id) = (strL "/watch?v=" ++ id, []) :=
    splitAtCharDrop_all '#' _ (by decide) fun c hc => (idChar_spec (hid c hc)).2.2.2.1
  have h4 : splitAtCharDrop '?' (strL "/watch?v=" ++ id) =
      (strL "/watch", strL "v=" ++ id) := by
    unfold splitAtCharDrop
    rw [takeWhile_append_stop id (by decide), dropWhile_append_stop id (by decide)]
    rw [show (strL "/watch?v=").takeWhile (· ≠ '?') = strL "/watch" from by decide]
    rw [show (strL "/watch?v=").dropWhile (· ≠ '?') = strL "?v=" from by decide]
    rw [show (strL "?v=" ++ id).drop 1 = strL "v=" ++ id from
      by rw [List.drop_append_of_le_length (by decide)]; rfl]
  simp only [urlparseL, h1, h2, h3, h4]

/-- Shared evaluation for the three id-in-path shapes on the
`https://www.youtube.com` host: `pathLit` is `/v/`, `/embed/` or
`/shorts/`. -/
theorem urlparse_pathform (pathLit : List Char) (id : List Char)
    (hall : id.all idChar = true)
    (hbf : (strL "https://www.youtube.com" ++ pathLit).takeWhile (· ≠ ':') = strL "https")
    (haf : (strL "https://www.youtube.com" ++ pathLit).dropWhile (· ≠ ':') =
      strL "://www.youtube.com" ++ pathLit)
    (hstop : ((strL "https://www.youtube.com" ++ pathLit).takeWhile (· ≠ ':')).length ≠
      (strL "https://www.youtube.com" ++ pathLit).length)
    (hnl1 : (strL "www.youtube.com" ++ pathLit).takeWhile netlocChar = strL "www.youtube.com")
    (hnl2 : (strL "www.youtube.com" ++ pathLit).dropWhile netlocChar = pathLit)
    (hnlstop : ((strL "www.youtube.com" ++ pathLit).takeWhile netlocChar).length ≠
      (strL "www.youtube.com" ++ pathLit).length)
    (hph : ∀ x ∈ pathLit, (decide (x ≠ '#')) = true)
    (hpq : ∀ x ∈ pathLit, (decide (x ≠ '?')) = true) :
    urlparseL ((strL "https://www.youtube.com" ++ pathLit) ++ id) =
      ⟨strL "https", strL "www.youtube.com", pathLit ++ id, [], []⟩ := by
  have hid : ∀ c ∈ id, idChar c = true := fun c hc => List.all_eq_true.mp hall c hc
  have h1 : schemeSplit ((strL "https://www.youtube.com" ++ pathLit) ++ id) =
      (strL "https", (strL "//www.youtube.com" ++ pathLit) ++ id) := by
    unfold schemeSplit
    rw [takeWhile_append_stop id hstop, dropWhile_append_stop id hstop, hbf, haf]
    rw [if_pos ?_]
    · rw [show toLowerL (strL "https") = strL "https" from by decide]
      rw [show strL "://www.youtube.com" ++ pathLit = ':' :: (strL "//www.youtube.com" ++
        pathLit) from by rw [show strL "://www.youtube.com" = ':' ::
          strL "//www.youtube.com" from rfl]; rfl]
      rw [List.cons_append, List.drop_succ_cons, List.drop_zero]
    · rw [show strL "://www.youtube.com" ++ pathLit = ':' :: (strL "//www.youtube.com" ++
        pathLit) from by rw [show strL "://www.youtube.com" = ':' ::
          strL "//www.youtube.com" from rfl]; rfl]
      rw [List.cons_append, show (':' :: ((strL "//www.youtube.com" ++ pathLit) ++
        id)).isEmpty = false from rfl]
      decide
  have h2 : netlocSplit ((strL "//www.youtube.com" ++ pathLit) ++ id) =
      (strL "www.youtube.com", pathLit ++ id) := by
    unfold netlocSplit
    rw [show strL "//www.youtube.com" ++ pathLit = strL "//" ++ (strL "www.youtube.com" ++
      pathLit) from by rw [← List.append_assoc]; rfl]
    rw [List.append_assoc]
    rw [List.take_append_of_le_length (by decide), show (strL "//").take 2 = strL "//"
      from rfl, if_pos rfl]
    rw [List.drop_append_of_le_length (by decide), show (strL "//").drop 2 = []
      from rfl, List.nil_append]
    rw [takeWhile_append_stop id hnlstop, dropWhile_append_stop id hnlstop, hnl1, hnl2]
  have h3 : splitAtCharDrop '#' (pathLit ++ id) = (pathLit ++ id, []) :=
    splitAtCharDrop_all '#' _ hph fun c hc => (idChar_spec (hid c hc)).2.2.2.1
  have h4 : splitAtCharDrop '?' (pathLit ++ id) = (pathLit ++ id, []) :=
    splitAtCharDrop_all '?' _ hpq fun c hc => (idChar_spec (hid c hc)).2.2.1
  rw [List.append_assoc]
  rw [show strL "https://www.youtube.com" ++ (pathLit ++ id) =
    strL "https://www.youtube.com" ++ pathLit ++ id from by rw [← List.append_assoc]]
  simp only [urlparseL, h1, h2, h3, h4]

theorem urlparse_shortlink_form (id : List Char) (hall : id.all idChar = true) :
    urlparseL (strL "https://youtu.be/" ++ id) =
      ⟨strL "https", strL "youtu.be", strL "/" ++ id, [], []⟩ := by
  have hid : ∀ c ∈ id, idChar c = true := fun c hc => List.all_eq_true.mp hall c hc
  have h1 : schemeSplit (strL "https://youtu.be/" ++ id) =
      (strL "https", strL "//youtu.be/" ++ id) := by
    unfold schemeSplit
    rw [takeWhile_append_stop id (by decide), dropWhile_append_stop id (by decide)]
    rw [show (strL "https://youtu.be/").takeWhile (· ≠ ':') = strL "https" from by decide]
    rw [show (strL "https://youtu.be/").dropWhile (· ≠ ':') = strL "://youtu.be/"
      from by decide]
    rw [if_pos ?_]
    · rw [show toLowerL (strL "https") = strL "https" from by decide,
        show (strL "://youtu.be/" ++ id).drop 1 = strL "//youtu.be/" ++ id from
          by rw [List.drop_append_of_le_length (by decide)]; rfl]
    · rw [show (strL "://youtu.be/" ++ id).isEmpty = false from rfl]
      decide
  have h2 : netlocSplit (strL "//youtu.be/" ++ id) = (strL "youtu.be", strL "/" ++ id) := by
    unfold netlocSplit
    rw [show (strL "//youtu.be/" ++ id).take 2 = strL "//" from
      by rw [List.take_append_of_le_length (by decide)]; decide]
    rw [if_pos rfl]
    rw [show (strL "//youtu.be/" ++ id).drop 2 = strL "youtu.be/" ++ id from
      by rw [List.drop_append_of_le_length (by decide)]; rfl]
    rw [takeWhile_append_stop id (by decide), dropWhile_append_stop id (by decide)]
    rw [show (strL "youtu.be/").takeWhile netlocChar = strL "youtu.be" from by decide]
    rw [show (strL "youtu.be/").dropWhile netlocChar = strL "/" from by decide]
  have h3 : splitAtCharDrop '#' (strL "/" ++ id) = (strL "/" ++ id, []) :=
    splitAtCharDrop_all '#' _ (by decide) fun c hc => (idChar_spec (hid c hc)).2.2.2.1
  have h4 : splitAtCharDrop '?' (strL "/" ++ id) = (strL "/" ++ id, []) :=
    splitAtCharDrop_all '?' _ (by decide) fun c hc => (idChar_spec (hid c hc)).2.2.1
  simp only [urlparseL, h1, h2, h3, h4]

/-- Shared evaluation for scheme-less inputs: the whole text becomes the
path (up to a query split). -/
theorem urlparse_schemeless_noquery (lit : List Char) (id : List Char)
    (hall : id.all idChar = true)
    (hcolon : ∀ x ∈ lit, (decide (x ≠ ':')) = true)
    (htake2 : (lit ++ id).take 2 ≠ strL "//")
    (hph : ∀ x ∈ lit, (decide (x ≠ '#')) = true)
    (hpq : ∀ x ∈ lit, (decide (x ≠ '?')) = true) :
    urlparseL (lit ++ id) = ⟨[], [], lit ++ id, [], []⟩ := by
  have hid : ∀ c ∈ id, idChar c = true := fun c hc => List.all_eq_true.mp hall c hc
  have h1 : schemeSplit (lit ++ id) = ([], lit ++ id) :=
    schemeSplit_schemeless lit id hcolon hid
  have h2 : netlocSplit (lit ++ id) = ([], lit ++ id) := by
    unfold netlocSplit
    rw [if_neg htake2]
  have h3 : splitAtCharDrop '#' (lit ++ id) = (lit ++ id, []) :=
    splitAtCharDrop_all '#' _ hph fun c hc => (idChar_spec (hid c hc)).2.2.2.1
  have h4 : splitAtCharDrop '?' (lit ++ id) = (lit ++ id, []) :=
    splitAtCharDrop_all '?' _ hpq fun c hc => (idChar_spec (hid c hc)).2.2.1
  simp only [urlparseL, h1, h2, h3, h4]

/-- Shared evaluation for scheme-less watch inputs
(`www.youtube.com/watch?v=` and `youtube.com/watch?v=`). -/
theorem urlparse_schemeless_watch (hostLit : List Char) (id : List Char)
    (hall : id.all idChar = true)
    (hcolon : ∀ x ∈ (hostLit ++ strL "/watch?v="), (decide (x ≠ ':')) = true)
    (htake2 : ((hostLit ++ strL "/watch?v=") ++ id).take 2 ≠ strL "//")
    (hph : ∀ x ∈ (hostLit ++ strL "/watch?v="), (decide (x ≠ '#')) = true)
    (hbf : (hostLit ++ strL "/watch?v=").takeWhile (· ≠ '?') = hostLit ++ strL "/watch")
    (hdw : (hostLit ++ strL "/watch?v=").dropWhile (· ≠ '?') = strL "?v=")
    (hqstop : ((hostLit ++ strL "/watch?v=").takeWhile (· ≠ '?')).length ≠
      (hostLit ++ strL "/watch?v=").length) :
    urlparseL ((hostLit ++ strL "/watch?v=") ++ id) =
      ⟨[], [], hostLit ++ strL "/watch", strL "v=" ++ id, []⟩ := by
  have hid : ∀ c ∈ id, idChar c = true := fun c hc => List.all_eq_true.mp hall c hc
  have h1 : schemeSplit ((hostLit ++ strL "/watch?v=") ++ id) =
      ([], (hostLit ++ strL "/watch?v=") ++ id) :=
    schemeSplit_schemeless _ id hcolon hid
  have h2 : netlocSplit ((hostLit ++ strL "/watch?v=") ++ id) =
      ([], (hostLit ++ strL "/watch?v=") ++ id) := by
    unfold netlocSplit
    rw [if_neg htake2]
  have h3 : splitAtCharDrop '#' ((hostLit ++ strL "/watch?v=") ++ id) =
      ((hostLit ++ strL "/watch?v=") ++ id, []) :=
    splitAtCharDrop_all '#' _ hph fun c hc => (idChar_spec (hid c hc)).2.2.2.1
  have h4 : splitAtCharDrop '?' ((hostLit ++ strL "/watch?v=") ++ id) =
      (hostLit ++ strL "/watch", strL "v=" ++ id) := by
    unfold splitAtCharDrop
    rw [takeWhile_append_stop id hqstop, dropWhile_append_stop id hqstop, hbf, hdw]
    rw [show (strL "?v=" ++ id).drop 1 = strL "v=" ++ id from
      by rw [List.drop_append_of_le_length (by decide)]; rfl]
  simp only [urlparseL, h1, h2, h3, h4]

theorem urlparse_v_form (id : List Char) (hall : id.all idChar = true) :
    urlparseL (strL "https://www.youtube.com/v/" ++ id) =
      ⟨strL "https", strL "www.youtube.com", strL "/v/" ++ id, [], []⟩ := by
  have h := urlparse_pathform (strL "/v/") id hall (by decide) (by decide) (by decide)
    (by decide) (by decide) (by decide) (by decide) (by decide)
  rw [show strL "https://www.youtube.com" ++ strL "/v/" = strL "https://www.youtube.com/v/"
    from by decide] at h
  exact h

theorem urlparse_embed_form (id : List Char) (hall : id.all idChar = true) :
    urlparseL (strL "https://www.youtube.com/embed/" ++ id) =
      ⟨strL "https", strL "www.youtube.com", strL "/embed/" ++ id, [], []⟩ := by
  have h := urlparse_pathform (strL "/embed/") id hall (by decide) (by decide) (by decide)
    (by decide) (by decide) (by decide) (by decide) (by decide)
  rw [show strL "https://www.youtube.com" ++ strL "/embed/" =
    strL "https://www.youtube.com/embed/" from by decide] at h
  exact h

theorem urlparse_shorts_form (id : List Char) (hall : id.all idChar = true) :
    urlparseL (strL "https://www.youtube.com/shorts/" ++ id) =
      ⟨strL "https", strL "www.youtube.com", strL "/shorts/" ++ id, [], []⟩ := by
  have h := urlparse_pathform (strL "/shorts/") id hall (by decide) (by decide) (by decide)
    (by decide) (by decide) (by decide) (by decide) (by decide)
  rw [show strL "https://www.youtube.com" ++ strL "/shorts/" =
    strL "https://www.youtube.com/shorts/" from by decide] at h
  exact h

theorem urlparse_www_watch_form (id : List Char) (hall : id.all idChar = true) :
    urlparseL (strL "www.youtube.com/watch?v=" ++ id) =
      ⟨[], [], strL "www.youtube.com/watch", strL "v=" ++ id, []⟩ := by
  have h := urlparse_schemeless_watch (strL "www.youtube.com") id hall (by decide)
    (by rw [show strL "www.youtube.com" ++ strL "/watch?v=" = strL "www.youtube.com/watch?v="
      from by decide, List.take_append_of_le_length (by decide)]; decide)
    (by decide) (by decide) (by decide) (by decide)
  rw [show strL "www.youtube.com" ++ strL "/watch?v=" = strL "www.youtube.com/watch?v="
    from by decide, show strL "www.youtube.com" ++ strL "/watch" = strL "www.youtube.com/watch"
    from by decide] at h
  exact h

theorem urlparse_bare_watch_form (id : List Char) (hall : id.all idChar = true) :
    urlparseL (strL "youtube.com/watch?v=" ++ id) =
      ⟨[], [], strL "youtube.com/watch", strL "v=" ++ id, []⟩ := by
  have h := urlparse_schemeless_watch (strL "youtube.com") id hall (by decide)
    (by rw [show strL "youtube.com" ++ strL "/watch?v=" = strL "youtube.com/watch?v="
      from by decide, List.take_append_of_le_length (by decide)]; decide)
    (by decide) (by decide) (by decide) (by decide)
  rw [show strL "youtube.com" ++ strL "/watch?v=" = strL "youtube.com/watch?v="
    from by decide, show strL "youtube.com" ++ strL "/watch" = strL "youtube.com/watch"
    from by decide] at h
  exact h

theorem urlparse_bare_short_form (id : List Char) (hall : id.all idChar = true) :
    urlparseL (strL "youtu.be/" ++ id) = ⟨[], [], strL "youtu.be/" ++ id, [], []⟩ :=
  urlparse_schemeless_noquery (strL "youtu.be/") id hall (by decide)
    (by rw [List.take_append_of_le_length (by decide)]; decide) (by decide) (by decide)

/-! ## Per-form canonicalization lemmas for `buildEmbedOrWatch` -/

theorem bEOW_watch (id : List Char) (h11 : id.length = 11) (hall : id.all idChar = true) :
    buildEmbedOrWatch (strL "https://www.youtube.com/watch?v=" ++ id) =
      strL "https://www.youtube.com/embed/" ++ id := by
  have hid : ∀ c ∈ id, idChar c = true := fun c hc => List.all_eq_true.mp hall c hc
  have hif := findIframeSrc_append_none (strL "https://www.youtube.com/watch?v=") id
    (by decide) hid
  have hup := urlparse_watch_form id hall
  have hsearch := searchYt_of_matchAt (matchAt_at_zero (strL "https://www.youtube.com/watch?v=") id [] (ytCombosList.drop 1)
    (by rw [ytCombos_eq]; decide) (by decide) h11 hall)
  unfold buildEmbedOrWatch
  rw [hif]
  simp only [Option.getD_none]
  rw [hup]
  simp only []
  rw [show (if containsSub (strL "youtube.com") (toLowerL (strL "www.youtube.com")) then
      matchChannelLive (rstripSlash (strL "/watch")) else none) = none from by decide]
  rw [hsearch]

theorem bEOW_http_watch (id : List Char) (h11 : id.length = 11)
    (hall : id.all idChar = true) :
    buildEmbedOrWatch (strL "http://www.youtube.com/watch?v=" ++ id) =
      strL "https://www.youtube.com/embed/" ++ id := by
  have hid : ∀ c ∈ id, idChar c = true := fun c hc => List.all_eq_true.mp hall c hc
  have hif := findIframeSrc_append_none (strL "http://www.youtube.com/watch?v=") id
    (by decide) hid
  have hup := urlparse_http_watch_form id hall
  have hsearch := searchYt_of_matchAt (matchAt_at_zero (strL "http://www.youtube.com/watch?v=") id (ytCombosList.take 10)
    (ytCombosList.drop 11) (by rw [ytCombos_eq]; decide) (by decide) h11 hall)
  unfold buildEmbedOrWatch
  rw [hif]
  simp only [Option.getD_none]
  rw [hup]
  simp only []
  rw [show (if containsSub (strL "youtube.com") (toLowerL (strL "www.youtube.com")) then
      matchChannelLive (rstripSlash (strL "/watch")) else none) = none from by decide]
  rw [hsearch]

theorem bEOW_v (id : List Char) (h11 : id.length = 11) (hall : id.all idChar = true) :
    buildEmbedOrWatch (strL "https://www.youtube.com/v/" ++ id) =
      strL "https://www.youtube.com/embed/" ++ id := by
  have hid : ∀ c ∈ id, idChar c = true := fun c hc => List.all_eq_true.mp hall c hc
  have hne : id ≠ [] := by
    intro h
    rw [h] at h11
    exact absurd h11 (by decide)
  have hif := findIframeSrc_append_none (strL "https://www.youtube.com/v/") id
    (by decide) hid
  have hup := urlparse_v_form id hall
  have hsearch := searchYt_of_matchAt (matchAt_at_zero (strL "https://www.youtube.com/v/") id (ytCombosList.take 1)
    (ytCombosList.drop 2) (by rw [ytCombos_eq]; decide) (by decide) h11 hall)
  have hchan : matchChannelLive (strL "/v/" ++ id) = none := by
    unfold matchChannelLive
    rw [dropPref_none_of_mism id (by decide)]
  unfold buildEmbedOrWatch
  rw [hif]
  simp only [Option.getD_none]
  rw [hup]
  simp only []
  rw [rstripSlash_append_id (strL "/v/") hne hid]
  rw [if_pos (show containsSub (strL "youtube.com") (toLowerL (strL "www.youtube.com")) = true
    from by decide)]
  rw [hchan, hsearch]

theorem bEOW_embed (id : List Char) (h11 : id.length = 11) (hall : id.all idChar = true) :
    buildEmbedOrWatch (strL "https://www.youtube.com/embed/" ++ id) =
      strL "https://www.youtube.com/embed/" ++ id := by
  have hid : ∀ c ∈ id, idChar c = true := fun c hc => List.all_eq_true.mp hall c hc
  have hne : id ≠ [] := by
    intro h
    rw [h] at h11
    exact absurd h11 (by decide)
  have hif := findIframeSrc_append_none (strL "https://www.youtube.com/embed/") id
    (by decide) hid
  have hup := urlparse_embed_form id hall
  have hsearch := searchYt_of_matchAt (matchAt_at_zero (strL "https://www.youtube.com/embed/") id (ytCombosList.take 2)
    (ytCombosList.drop 3) (by rw [ytCombos_eq]; decide) (by decide) h11 hall)
  have hchan : matchChannelLive (strL "/embed/" ++ id) = none := by
    unfold matchChannelLive
    rw [dropPref_none_of_mism id (by decide)]
  unfold buildEmbedOrWatch
  rw [hif]
  simp only [Option.getD_none]
  rw [hup]
  simp only []
  rw [rstripSlash_append_id (strL "/embed/") hne hid]
  rw [if_pos (show containsSub (strL "youtube.com") (toLowerL (strL "www.youtube.com")) = true
    from by decide)]
  rw [hchan, hsearch]

theorem bEOW_shorts (id : List Char) (h11 : id.length = 11) (hall : id.all idChar = true) :
    buildEmbedOrWatch (strL "https://www.youtube.com/shorts/" ++ id) =
      strL "https://www.youtube.com/embed/" ++ id := by
  have hid : ∀ c ∈ id, idChar c = true := fun c hc => List.all_eq_true.mp hall c hc
  have hne : id ≠ [] := by
    intro h
    rw [h] at h11
    exact absurd h11 (by decide)
  have hif := findIframeSrc_append_none (strL "https://www.youtube.com/shorts/") id
    (by decide) hid
  have hup := urlparse_shorts_form id hall
  have hsearch := searchYt_of_matchAt (matchAt_at_zero (strL "https://www.youtube.com/shorts/") id (ytCombosList.take 3)
    (ytCombosList.drop 4) (by rw [ytCombos_eq]; decide) (by decide) h11 hall)
  have hchan : matchChannelLive (strL "/shorts/" ++ id) = none := by
    unfold matchChannelLive
    rw [dropPref_none_of_mism id (by decide)]
  unfold buildEmbedOrWatch
  rw [hif]
  simp only [Option.getD_none]
  rw [hup]
  simp only []
  rw [rstripSlash_append_id (strL "/shorts/") hne hid]
  rw [if_pos (show containsSub (strL "youtube.com") (toLowerL (strL "www.youtube.com")) = true
    from by decide)]
  rw [hchan, hsearch]

theorem bEOW_shortlink (id : List Char) (h11 : id.length = 11)
    (hall : id.all idChar = true) :
    buildEmbedOrWatch (strL "https://youtu.be/" ++ id) =
      strL "https://www.youtube.com/embed/" ++ id := by
  have hid : ∀ c ∈ id, idChar c = true := fun c hc => List.all_eq_true.mp hall c hc
  have hif := findIframeSrc_append_none (strL "https://youtu.be/") id (by decide) hid
  have hup := urlparse_shortlink_form id hall
  have hsearch := searchYt_of_matchAt (matchAt_at_zero (strL "https://youtu.be/") id (ytCombosList.take 9)
    (ytCombosList.drop 10) (by rw [ytCombos_eq]; decide) (by decide) h11 hall)
  unfold buildEmbedOrWatch
  rw [hif]
  simp only [Option.getD_none]
  rw [hup]
  simp only []
  rw [if_neg (show ¬ containsSub (strL "youtube.com") (toLowerL (strL "youtu.be")) = true
    from by decide)]
  rw [hsearch]

theorem bEOW_www_watch (id : List Char) (h11 : id.length = 11)
    (hall : id.all idChar = true) :
    buildEmbedOrWatch (strL "www.youtube.com/watch?v=" ++ id) =
      strL "https://www.youtube.com/embed/" ++ id := by
  have hid : ∀ c ∈ id, idChar c = true := fun c hc => List.all_eq_true.mp hall c hc
  have hif := findIframeSrc_append_none (strL "www.youtube.com/watch?v=") id (by decide) hid
  have hup := urlparse_www_watch_form id hall
  have hsearch := searchYt_of_matchAt (matchAt_at_zero (strL "www.youtube.com/watch?v=") id (ytCombosList.take 20)
    (ytCombosList.drop 21) (by rw [ytCombos_eq]; decide) (by decide) h11 hall)
  unfold buildEmbedOrWatch
  rw [hif]
  simp only [Option.getD_none]
  rw [hup]
  simp only []
  rw [if_neg (show ¬ containsSub (strL "youtube.com") (toLowerL []) = true from by decide)]
  rw [hsearch]

theorem bEOW_bare_watch (id : List Char) (h11 : id.length = 11)
    (hall : id.all idChar = true) :
    buildEmbedOrWatch (strL "youtube.com/watch?v=" ++ id) =
      strL "https://www.youtube.com/embed/" ++ id := by
  have hid : ∀ c ∈ id, idChar c = true := fun c hc => List.all_eq_true.mp hall c hc
  have hif := findIframeSrc_append_none (strL "youtube.com/watch?v=") id (by decide) hid
  have hup := urlparse_bare_watch_form id hall
  have hsearch := searchYt_of_matchAt (matchAt_at_zero (strL "youtube.com/watch?v=") id (ytCombosList.take 25)
    (ytCombosList.drop 26) (by rw [ytCombos_eq]; decide) (by decide) h11 hall)
  unfold buildEmbedOrWatch
  rw [hif]
  simp only [Option.getD_none]
  rw [hup]
  simp only []
  rw [if_neg (show ¬ containsSub (strL "youtube.com") (toLowerL []) = true from by decide)]
  rw [hsearch]

theorem bEOW_bare_short (id : List Char) (h11 : id.length = 11)
    (hall : id.all idChar = true) :
    buildEmbedOrWatch (strL "youtu.be/" ++ id) =
      strL "https://www.youtube.com/embed/" ++ id := by
  have hid : ∀ c ∈ id, idChar c = true := fun c hc => List.all_eq_true.mp hall c hc
  have hif := findIframeSrc_append_none (strL "youtu.be/") id (by decide) hid
  have hup := urlparse_bare_short_form id hall
  have hsearch := searchYt_of_matchAt (matchAt_at_zero (strL "youtu.be/") id (ytCombosList.take 29)
    (ytCombosList.drop 30) (by rw [ytCombos_eq]; decide) (by decide) h11 hall)
  unfold buildEmbedOrWatch
  rw [hif]
  simp only [Option.getD_none]
  rw [hup]
  simp only []
  rw [if_neg (show ¬ containsSub (strL "youtube.com") (toLowerL []) = true from by decide)]
  rw [hsearch]

theorem isYoutubeUrl_watch (id : List Char) (hall : id.all idChar = true) :
    isYoutubeUrl (strL "https://www.youtube.com/watch?v=" ++ id) = true := by
  unfold isYoutubeUrl
  rw [urlparse_watch_form id hall]
  rfl

theorem chooseBackend_watch (id : List Char) (hall : id.all idChar = true) :
    chooseBackend (strL "https://www.youtube.com/watch?v=" ++ id) [] true = strL "embed" ∧
    chooseBackend (strL "https://www.youtube.com/watch?v=" ++ id) [] false = strL "qt" := by
  have hyt := isYoutubeUrl_watch id hall
  constructor <;>
    · unfold chooseBackend
      simp only [List.filterMap_nil, List.head?_nil]
      rw [hyt]
      rfl

/-- **C5, counterexample** The claim designates
`https://www.youtube.com/watch?v=<id>` as the canonical rewrite target
(with the embed form only under a privacy setting); the code rewrites a
watch-shaped URL to the embed form unconditionally. -/
theorem classify_watch_url_yields_embed_not_watch :
    buildEmbedOrWatch (strL "https://www.youtube.com/watch?v=abcdefghijk") =
      strL "https://www.youtube.com/embed/abcdefghijk" ∧
    buildEmbedOrWatch (strL "https://www.youtube.com/watch?v=abcdefghijk") ≠
      strL "https://www.youtube.com/watch?v=abcdefghijk" := by
  constructor
  · decide
  · decide

/-- **C5 (amended)** Every YouTube-family URL of shape `watch?v=`,
`/v/`, `/embed/`, `/shorts/` or `youtu.be/<id>` with an exactly
11-character id is rewritten to the embed-canonical
`https://www.youtube.com/embed/<id>` form, regardless of the privacy
setting — that setting selects the playback backend (`embed` vs `qt`),
not the canonical URL; ids shorter than 11 characters fall through
unmatched. -/
theorem youtube_id_forms_canonicalize_to_embed (id : List Char) (h11 : id.length = 11)
    (hall : id.all idChar = true) :
    buildEmbedOrWatch (strL "https://www.youtube.com/watch?v=" ++ id) =
        strL "https://www.youtube.com/embed/" ++ id ∧
    buildEmbedOrWatch (strL "https://www.youtube.com/v/" ++ id) =
        strL "https://www.youtube.com/embed/" ++ id ∧
    buildEmbedOrWatch (strL "https://www.youtube.com/embed/" ++ id) =
        strL "https://www.youtube.com/embed/" ++ id ∧
    buildEmbedOrWatch (strL "https://www.youtube.com/shorts/" ++ id) =
        strL "https://www.youtube.com/embed/" ++ id ∧
    buildEmbedOrWatch (strL "https://youtu.be/" ++ id) =
        strL "https://www.youtube.com/embed/" ++ id ∧
    buildEmbedOrWatch (strL "https://www.youtube.com/watch?v=short") =
        strL "https://www.youtube.com/watch?v=short" ∧
    buildEmbedOrWatch (strL "https://youtu.be/short") = strL "https://youtu.be/short" ∧
    chooseBackend (strL "https://www.youtube.com/watch?v=" ++ id) [] true = strL "embed" ∧
    chooseBackend (strL "https://www.youtube.com/watch?v=" ++ id) [] false = strL "qt" :=
  ⟨bEOW_watch id h11 hall, bEOW_v id h11 hall, bEOW_embed id h11 hall,
    bEOW_shorts id h11 hall, bEOW_shortlink id h11 hall, by decide, by decide,
    (chooseBackend_watch id hall).1, (chooseBackend_watch id hall).2⟩

/-- Witness for the amended C5 at a concrete id. -/
theorem youtube_id_forms_canonicalize_to_embed_witness :
    buildEmbedOrWatch (strL "https://www.youtube.com/watch?v=" ++ strL "abcdefghijk") =
      strL "https://www.youtube.com/embed/" ++ strL "abcdefghijk" :=
  (youtube_id_forms_canonicalize_to_embed (strL "abcdefghijk") (by decide) (by decide)).1

/-- **C6** All surface forms carrying the same 11-character id (watch,
shorts, embed, `/v/`, `youtu.be` short link, with or without scheme and
`www.` prefix) classify to one and the same canonical URL, and
classifying that canonical URL again yields it unchanged. -/
theorem classify_all_surface_forms_same_canonical (id : List Char) (h11 : id.length = 11)
    (hall : id.all idChar = true) :
    buildEmbedOrWatch (strL "https://www.youtube.com/watch?v=" ++ id) =
        strL "https://www.youtube.com/embed/" ++ id ∧
    buildEmbedOrWatch (strL "https://www.youtube.com/shorts/" ++ id) =
        strL "https://www.youtube.com/embed/" ++ id ∧
    buildEmbedOrWatch (strL "https://www.youtube.com/embed/" ++ id) =
        strL "https://www.youtube.com/embed/" ++ id ∧
    buildEmbedOrWatch (strL "https://www.youtube.com/v/" ++ id) =
        strL "https://www.youtube.com/embed/" ++ id ∧
    buildEmbedOrWatch (strL "https://youtu.be/" ++ id) =
        strL "https://www.youtube.com/embed/" ++ id ∧
    buildEmbedOrWatch (strL "http://www.youtube.com/watch?v=" ++ id) =
        strL "https://www.youtube.com/embed/" ++ id ∧
    buildEmbedOrWatch (strL "www.youtube.com/watch?v=" ++ id) =
        strL "https://www.youtube.com/embed/" ++ id ∧
    buildEmbedOrWatch (strL "youtube.com/watch?v=" ++ id) =
        strL "https://www.youtube.com/embed/" ++ id ∧
    buildEmbedOrWatch (strL "youtu.be/" ++ id) =
        strL "https://www.youtube.com/embed/" ++ id ∧
    buildEmbedOrWatch (buildEmbedOrWatch (strL "https://www.youtube.com/watch?v=" ++ id)) =
      buildEmbedOrWatch (strL "https://www.youtube.com/watch?v=" ++ id) := by
  refine ⟨bEOW_watch id h11 hall, bEOW_shorts id h11 hall, bEOW_embed id h11 hall,
    bEOW_v id h11 hall, bEOW_shortlink id h11 hall, bEOW_http_watch id h11 hall,
    bEOW_www_watch id h11 hall, bEOW_bare_watch id h11 hall, bEOW_bare_short id h11 hall, ?_⟩
  rw [bEOW_watch id h11 hall]
  exact bEOW_embed id h11 hall

/-- Witness for C6 at a concrete id: the short link and the watch URL
agree, and the canonical form is a fixed point. -/
theorem classify_all_surface_forms_same_canonical_witness :
    buildEmbedOrWatch (strL "youtu.be/" ++ strL "abcdefghijk") =
      strL "https://www.youtube.com/embed/" ++ strL "abcdefghijk" :=
  (classify_all_surface_forms_same_canonical (strL "abcdefghijk") (by decide)
    (by decide)).2.2.2.2.2.2.2.2.1

/-! ## Claim theorems: the M3U parser -/

/-- **C7, counterexample** The claim says the fallback display name is
the text after the *last* comma; the code captures everything after the
*first* comma, so `#EXTINF:-1,A,B` yields the name `A,B`, not `B`. -/
theorem extinf_name_first_comma_counterexample :
    parseM3u (strL "#EXTM3U\n#EXTINF:-1,A,B\nhttp://u") =
      [(strL "A,B", strL "http://u")] ∧
    strL "A,B" ≠ strL "B" := by
  constructor
  · decide
  · decide

/-- **C7 (amended)** The display name is the `tvg-name` attribute when
present (the claim's concrete example holds); otherwise the text after
the *first* comma of the `#EXTINF` line (which may itself contain
commas); otherwise the fixed placeholder name. -/
theorem display_name_resolution (a b : List Char) (hna : ',' ∉ a) (hb : b ≠ [])
    (htvg : findTvgName (a ++ ',' :: b) = none) :
    extinfName (a ++ ',' :: b) = b ∧
    parseM3u (strL "#EXTM3U\n#EXTINF:-1 tvg-name=\"X\",Y\nhttp://a\n") =
      [(strL "X", strL "http://a")] ∧
    (∀ l : List Char, ',' ∉ l → findTvgName l = none →
      extinfName l = strL "Unnamed Channel") := by
  refine ⟨?_, by decide, ?_⟩
  · have hcomma : afterFirstComma (a ++ ',' :: b) = some b := by
      unfold afterFirstComma
      rw [dropWhile_append_all (',' :: b) fun c hc => by
        simp only [decide_eq_true_eq]
        exact fun heq => hna (heq ▸ hc)]
      rw [List.dropWhile_cons, if_neg (by simp)]
      simp [hb]
    unfold extinfName
    rw [hcomma, htvg]
  · intro l hl htvg2
    have hcomma : afterFirstComma l = none := by
      unfold afterFirstComma
      rw [List.dropWhile_eq_nil_iff.mpr fun c hc => by
        simp only [decide_eq_true_eq]
        exact fun heq => hl (heq ▸ hc)]
    unfold extinfName
    rw [hcomma, htvg2]

/-- Witness for the amended C7. -/
theorem display_name_resolution_witness :
    extinfName (strL "#EXTINF:-1" ++ ',' :: strL "My, Channel") = strL "My, Channel" :=
  (display_name_resolution (strL "#EXTINF:-1") (strL "My, Channel") (by decide) (by decide)
    (by decide)).1

theorem findUrlSplit_none_of_directives (ls : List (List Char))
    (hall : ∀ l ∈ ls, l = [] ∨ startsWithL (strL "#") l = true) :
    findUrlSplit ls = none := by
  induction ls with
  | nil => rfl
  | cons l rest ih =>
    unfold findUrlSplit
    rw [if_neg ?_]
    · exact ih fun x hx => hall x (List.mem_cons_of_mem l hx)
    · rcases hall l (List.mem_cons_self l rest) with h | h
      · exact fun hc => hc.1 h
      · exact fun hc => hc.2 h

theorem scanM3uF_all_directives :
    ∀ (fuel : Nat) (ls : List (List Char)),
      (∀ l ∈ ls, l = [] ∨ startsWithL (strL "#") l = true) → scanM3uF fuel ls = [] := by
  intro fuel
  induction fuel with
  | zero => intro ls _; rfl
  | succ n ih =>
    intro ls hall
    cases ls with
    | nil => rfl
    | cons l rest =>
      unfold scanM3uF
      have hrest : ∀ x ∈ rest, x = [] ∨ startsWithL (strL "#") x = true :=
        fun x hx => hall x (List.mem_cons_of_mem l hx)
      by_cases hext : startsWithL (strL "#EXTINF:") l = true
      · rw [if_pos hext, findUrlSplit_none_of_directives rest hrest]
        exact ih rest hrest
      · rw [if_neg hext]
        exact ih rest hrest

/-- **C8, counterexample** The claim says an `#EXTINF` with no URL line
before the *next* `#EXTINF` is dropped without consuming any other
entry's URL; in the code the URL search skips `#`-prefixed lines
(including `#EXTINF` lines), so the first `#EXTINF` captures the URL
belonging to the second, which is dropped instead of the first. -/
theorem extinf_steals_next_url_counterexample :
    parseM3u (strL "#EXTM3U\n#EXTINF:-1,A\n#EXTINF:-1,B\nhttp://u") =
      [(strL "A", strL "http://u")] ∧
    strL "A" ≠ strL "B" := by
  constructor
  · decide
  · decide

/-- **C8 (amended)** An `#EXTINF` line with no following URL line
(nonempty and not `#`-prefixed) anywhere before end-of-input produces no
entry and no error — in particular a tail of directive-only or empty
lines yields nothing; however the URL search skips over `#`-prefixed
lines including later `#EXTINF` lines, so an `#EXTINF` followed by
directives and then a URL captures that URL (comment lines between an
`#EXTINF` and its URL are skipped, and a skipped intermediate `#EXTINF`
is the one dropped). -/
theorem extinf_without_url_dropped (ls : List (List Char))
    (hall : ∀ l ∈ ls, l = [] ∨ startsWithL (strL "#") l = true) :
    scanM3u ls = [] ∧
    parseM3u (strL "#EXTM3U\n#EXTINF:-1,A\n#comment\nhttp://u\n#EXTINF:-1,C") =
      [(strL "A", strL "http://u")] := by
  refine ⟨scanM3uF_all_directives ls.length ls hall, by decide⟩

/-- Witness for the amended C8. -/
theorem extinf_without_url_dropped_witness :
    scanM3u [strL "#EXTINF:-1,A", [], strL "#comment"] = [] :=
  (extinf_without_url_dropped [strL "#EXTINF:-1,A", [], strL "#comment"] (by decide)).1

end NewsBoard
